import Mathlib

/-!
Verification development for the QRCodeGeneratorZX repository.

Shallow embedding of the SVG geometry optimizer subsystem:
colors are modelled as RGB triples of naturals (the source classifies hex
and rgb() color strings by their RGB components), pixel coordinates as
rationals (the source uses floating-point pixel coordinates obtained from
exact integer arithmetic on small values), SVG documents as structured
element lists (the source builds and parses SVG text; the DOM round-trip
is the identity on the attributes the optimizers read), and the mutable
grid of the block merger as an association list plus an explicit used-key
list.  The unbounded while loops of the block merger are embedded with a
fuel argument that exceeds the number of grid cells, which is an upper
bound on the number of iterations the source loops can perform.
-/

/-! ### Colors (svgOptimizer.js / svgRowOptimizer.js color classification) -/

/-- An RGB color; the embedding of the color strings the source classifies
by their red / green / blue components. -/
structure RGB where
  r : ℕ
  g : ℕ
  b : ℕ
deriving DecidableEq, Repr

/-- svgOptimizer.js, svgRowOptimizer.js `isBlackColor`: a color is black
when every component is at most 51 (0x33). -/
def isBlackColor (c : RGB) : Bool :=
  decide (c.r ≤ 51) && decide (c.g ≤ 51) && decide (c.b ≤ 51)

/-- svgRowOptimizer.js `isBackgroundColor`: a color is background / light
when every component is at least 204 (0xcc). -/
def isBackgroundColor (c : RGB) : Bool :=
  decide (204 ≤ c.r) && decide (204 ≤ c.g) && decide (204 ≤ c.b)

def rgbBlack : RGB := ⟨0, 0, 0⟩

def rgbWhite : RGB := ⟨255, 255, 255⟩

/-! ### Rectangles and SVG documents -/

/-- The rectangle record `{x, y, width, height, fill}` used by both
optimizers (svgRowOptimizer.js `extractRectData`). -/
structure RectData where
  x : ℚ
  y : ℚ
  width : ℚ
  height : ℚ
  fill : RGB
deriving DecidableEq, Repr

/-- Pure geometry of a rectangle, as pushed by svgOptimizer.js
`convertRectsToPath` (which drops the fill). -/
structure RectGeom where
  x : ℚ
  y : ℚ
  width : ℚ
  height : ℚ
deriving DecidableEq, Repr

def toGeom (r : RectData) : RectGeom := ⟨r.x, r.y, r.width, r.height⟩

/-- The two MIME types the hybrid generator can emit
(svgPngHybrid.js `generateHighResPNG`). -/
inductive MimeType where
  | png
  | jpeg
deriving DecidableEq, Repr

/-- An SVG element as read / written by the generator and the optimizers:
a rect, a path (list of rectangular sub-paths, filled even-odd), or an
embedded image. -/
inductive SVGElem where
  | rect (data : RectData)
  | path (subpaths : List RectGeom) (fill : RGB)
  | image (mime : MimeType) (width height : ℚ)
deriving DecidableEq, Repr

/-- A structured SVG document: the width / height attributes and the child
elements in document order. -/
structure SVGDoc where
  width : ℚ
  height : ℚ
  elements : List SVGElem
deriving DecidableEq, Repr

/-- All rect elements of a document, in order (the NodeList returned by
querySelectorAll in both optimizers). -/
def rectElems (doc : SVGDoc) : List RectData :=
  doc.elements.filterMap (fun e =>
    match e with
    | .rect r => some r
    | _ => none)

/-! ### The bit matrix and the basic SVG (qrGenerator.js) -/

/-- The external encoder result: a boolean module grid
(`getWidth`, `getHeight`, `get`). -/
structure BitMatrix where
  width : ℕ
  height : ℕ
  get : ℕ → ℕ → Bool

/-- The dark module coordinates visited by `createSVGString`, in its loop
order (x outer, y inner). -/
def darkCells (M : BitMatrix) : List (ℕ × ℕ) :=
  (List.range M.width).flatMap (fun x =>
    (List.range M.height).filterMap (fun y =>
      if M.get x y then some (x, y) else none))

/-- The dark module rectangles of qrGenerator.js `createSVGString`: one
moduleSize-square rect per dark cell, moduleSize = size / matrix width. -/
def moduleRects (M : BitMatrix) (size : ℚ) (foregroundColor : RGB) : List RectData :=
  let moduleSize := size / (M.width : ℚ)
  (darkCells M).map (fun c =>
    ⟨(c.1 : ℚ) * moduleSize, (c.2 : ℚ) * moduleSize, moduleSize, moduleSize, foregroundColor⟩)

/-- qrGenerator.js `createSVGString`: a size-by-size document, a full-canvas
background rect unless the background is transparent (modelled as `none`),
then the dark module rects. -/
def createSVGString (M : BitMatrix) (size : ℚ) (foregroundColor : RGB)
    (backgroundColor : Option RGB) : SVGDoc :=
  { width := size, height := size,
    elements :=
      (match backgroundColor with
        | some bg => [SVGElem.rect ⟨0, 0, size, size, bg⟩]
        | none => []) ++ (moduleRects M size foregroundColor).map SVGElem.rect }

/-! ### Path-merge optimizer (svgOptimizer.js) -/

/-- svgOptimizer.js `convertRectsToPath`: keep the black, positively sized,
in-bounds rectangles; fail (null) when none remain; otherwise sort them top
to bottom then left to right and emit one closed rectangular sub-path per
rectangle. -/
def convertRectsToPath (rects : List RectData) (svgWidth svgHeight : ℚ) :
    Option (List RectGeom) :=
  let rectangles := rects.filterMap (fun r =>
    if isBlackColor r.fill = true ∧ 0 < r.width ∧ 0 < r.height ∧
        0 ≤ r.x ∧ 0 ≤ r.y ∧ r.x + r.width ≤ svgWidth ∧ r.y + r.height ≤ svgHeight then
      some (toGeom r)
    else none)
  if rectangles.isEmpty then none
  else
    some (rectangles.mergeSort (fun a b =>
      decide (a.y < b.y ∨ (a.y = b.y ∧ a.x ≤ b.x))))

/-- The selector used by svgOptimizer.js `createOptimizedSVG` to find a
white background rect in the original document. -/
def isWhiteRect (e : SVGElem) : Bool :=
  match e with
  | .rect r => decide (r.fill = rgbWhite)
  | _ => false

/-- svgOptimizer.js `createOptimizedSVG`: a full-canvas background rect
(the first white rect's fill, defaulting to white) followed by a single
black even-odd path. -/
def createOptimizedSVG (originalSvg : SVGDoc) (pathData : List RectGeom) : SVGDoc :=
  let backgroundColor :=
    match originalSvg.elements.find? isWhiteRect with
    | some (.rect r) => r.fill
    | _ => rgbWhite
  { width := originalSvg.width, height := originalSvg.height,
    elements := [SVGElem.rect ⟨0, 0, originalSvg.width, originalSvg.height, backgroundColor⟩,
                 SVGElem.path pathData rgbBlack] }

/-- svgOptimizer.js `optimizeSVG`: return the input unchanged when it has
no rect elements or when the path conversion fails; otherwise build the
optimized document. -/
def optimizeSVG (svg : SVGDoc) : SVGDoc :=
  let rects := rectElems svg
  if rects.isEmpty then svg
  else
    match convertRectsToPath rects svg.width svg.height with
    | none => svg
    | some pathData => createOptimizedSVG svg pathData

/-! ### Block merger (svgRowOptimizer.js) -/

/-- svgRowOptimizer.js `isRectValid`: positive size and inside the canvas. -/
def isRectValid (r : RectData) (svgWidth svgHeight : ℚ) : Bool :=
  decide (0 < r.width) && decide (0 < r.height) && decide (0 ≤ r.x) &&
  decide (0 ≤ r.y) && decide (r.x + r.width ≤ svgWidth) &&
  decide (r.y + r.height ≤ svgHeight)

/-- The black-rect extraction loop of `extractAndMergeBlocks`. -/
def extractBlackRects (rects : List RectData) (svgWidth svgHeight : ℚ) : List RectData :=
  rects.filter (fun r => isRectValid r svgWidth svgHeight && isBlackColor r.fill)

/-- The background-rect selection of `extractAndMergeBlocks`: the first
valid rect that is not black and is background-classified. -/
def findBackgroundRect (rects : List RectData) (svgWidth svgHeight : ℚ) : Option RectData :=
  rects.find? (fun r =>
    isRectValid r svgWidth svgHeight && !isBlackColor r.fill && isBackgroundColor r.fill)

/-- Association-list lookup for the grid object keyed by grid coordinates. -/
def lookupCell : List ((ℤ × ℤ) × RGB) → (ℤ × ℤ) → Option RGB
  | [], _ => none
  | c :: rest, k => if c.1 = k then some c.2 else lookupCell rest k

/-- One JS object-property assignment on the grid: overwrite the entry if
the key exists, append it otherwise. -/
def insertCell (cells : List ((ℤ × ℤ) × RGB)) (k : ℤ × ℤ) (v : RGB) :
    List ((ℤ × ℤ) × RGB) :=
  if (lookupCell cells k).isSome then
    cells.map (fun c => if c.1 = k then (k, v) else c)
  else
    cells ++ [(k, v)]

/-- The grid record returned by `createGridFromRectangles`; each cell keeps
the fill of the rectangle that produced it (the only per-cell data the
traversal reads back); the mutable used flag is carried separately as an
explicit key list. -/
structure GridData where
  cells : List ((ℤ × ℤ) × RGB)
  moduleSize : ℚ
  minX : ℚ
  minY : ℚ

/-- The grid coordinates of a rectangle:
round((x - minX) / moduleSize), round((y - minY) / moduleSize). -/
def rectKey (moduleSize minX minY : ℚ) (r : RectData) : ℤ × ℤ :=
  (round ((r.x - minX) / moduleSize), round ((r.y - minY) / moduleSize))

/-- svgRowOptimizer.js `createGridFromRectangles`: module size from the
FIRST rectangle, bounds as the minima over all rectangles, then one grid
cell per rectangle. -/
def createGridFromRectangles (rectangles : List RectData) : GridData :=
  match rectangles with
  | [] => ⟨[], 1, 0, 0⟩
  | firstRect :: _ =>
    let moduleSize := min firstRect.width firstRect.height
    let minX := (rectangles.map RectData.x).foldl min firstRect.x
    let minY := (rectangles.map RectData.y).foldl min firstRect.y
    let cells := rectangles.foldl
      (fun acc r => insertCell acc (rectKey moduleSize minX minY r) r.fill) []
    ⟨cells, moduleSize, minX, minY⟩

/-- Membership test on the explicit used-key list. -/
def usedContains (used : List (ℤ × ℤ)) (k : ℤ × ℤ) : Bool :=
  used.any (fun u => decide (u = k))

/-- A grid cell is available when it exists and is not used. -/
def availCell (cells : List ((ℤ × ℤ) × RGB)) (used : List (ℤ × ℤ)) (k : ℤ × ℤ) : Bool :=
  (lookupCell cells k).isSome && !(usedContains used k)

/-- The maxWidth loop of `findLargestRectangleFrom`: extend right while
cells are available. -/
def runRight (avail : ℤ × ℤ → Bool) (startY : ℤ) : ℤ → ℕ → ℕ
  | _, 0 => 0
  | x, fuel + 1 =>
    if avail (x, startY) then runRight avail startY (x + 1) fuel + 1 else 0

/-- The inner row scan of the height loop: returns canExtendHeight and
currentRowWidth (the count of available cells before the first failure). -/
def scanRow (avail : ℤ × ℤ → Bool) (y : ℤ) : ℤ → ℕ → Bool × ℕ
  | _, 0 => (true, 0)
  | x, w + 1 =>
    if avail (x, y) then
      let res := scanRow avail y (x + 1) w
      (res.1, res.2 + 1)
    else (false, 0)

/-- The downward-growth loop of `findLargestRectangleFrom`: on a fully
available row accept it (maxHeight := h, finalWidth := min of the widths),
otherwise stop and return (maxHeight, finalWidth). -/
def heightLoop (avail : ℤ × ℤ → Bool) (startX startY : ℤ) :
    ℕ → ℕ → ℕ → ℕ × ℕ
  | 0, maxHeight, finalWidth => (maxHeight, finalWidth)
  | fuel + 1, maxHeight, finalWidth =>
    let scan := scanRow avail (startY + (maxHeight + 1) - 1) startX finalWidth
    if scan.1 then
      heightLoop avail startX startY fuel (maxHeight + 1) (min finalWidth scan.2)
    else (maxHeight, finalWidth)

/-- One row of the used-marking loop: the keys in the row that exist in
the grid. -/
def rowKeys (present : ℤ × ℤ → Bool) (y : ℤ) : ℤ → ℕ → List (ℤ × ℤ)
  | _, 0 => []
  | x, w + 1 =>
    (if present (x, y) then [(x, y)] else []) ++ rowKeys present y (x + 1) w

/-- The used-marking double loop of `findLargestRectangleFrom` (y outer,
x inner): the present keys of the accepted block. -/
def blockKeys (present : ℤ × ℤ → Bool) (startX : ℤ) : ℤ → ℕ → ℕ → List (ℤ × ℤ)
  | _, _, 0 => []
  | y, w, h + 1 => rowKeys present y startX w ++ blockKeys present startX (y + 1) w h

/-- svgRowOptimizer.js `findLargestRectangleFrom`: null when the start cell
is missing or used; otherwise grow right then down, mark the block's cells
used, and emit the merged rectangle in pixel space. -/
def findLargestRectangleFrom (gd : GridData) (used : List (ℤ × ℤ))
    (startX startY : ℤ) : Option RectData × List (ℤ × ℤ) :=
  match lookupCell gd.cells (startX, startY) with
  | none => (none, used)
  | some fill =>
    if usedContains used (startX, startY) then (none, used)
    else
      let avail := fun k => availCell gd.cells used k
      let fuel := gd.cells.length + 1
      let maxWidth := runRight avail startY startX fuel
      let hw := heightLoop avail startX startY fuel 0 maxWidth
      if 0 < hw.1 ∧ 0 < hw.2 then
        (some ⟨gd.minX + startX * gd.moduleSize, gd.minY + startY * gd.moduleSize,
               (hw.2 : ℚ) * gd.moduleSize, (hw.1 : ℚ) * gd.moduleSize, fill⟩,
         used ++ blockKeys (fun k => (lookupCell gd.cells k).isSome) startX startY hw.2 hw.1)
      else (none, used)

/-- The scan loop of `findLargestBlocks` over the sorted positions:
skip used start cells, otherwise grow a block and collect it. -/
def processPositions (gd : GridData) :
    List (ℤ × ℤ) → List (ℤ × ℤ) → List RectData → List RectData × List (ℤ × ℤ)
  | [], used, blocks => (blocks, used)
  | k :: rest, used, blocks =>
    if usedContains used k then processPositions gd rest used blocks
    else
      let res := findLargestRectangleFrom gd used k.1 k.2
      processPositions gd rest res.2 (blocks ++ res.1.toList)

/-- The position sort of `findLargestBlocks`: top to bottom, then left to
right. -/
def sortPositions (keys : List (ℤ × ℤ)) : List (ℤ × ℤ) :=
  keys.mergeSort (fun a b => decide (a.2 < b.2 ∨ (a.2 = b.2 ∧ a.1 ≤ b.1)))

/-- svgRowOptimizer.js `findLargestBlocks`: traverse the grid positions in
sorted order; fall back to the original rectangles when no blocks were
found. -/
def findLargestBlocks (gd : GridData) (originalRects : List RectData) : List RectData :=
  let positions := sortPositions (gd.cells.map Prod.fst)
  let res := processPositions gd positions [] []
  if 0 < res.1.length then res.1 else originalRects

/-- svgRowOptimizer.js `mergeIntoBlocks`: empty input stays empty,
otherwise build the grid and traverse it. -/
def mergeIntoBlocks (rectangles : List RectData) : List RectData :=
  match rectangles with
  | [] => []
  | _ :: _ =>
    let grid := createGridFromRectangles rectangles
    findLargestBlocks grid rectangles

/-- svgRowOptimizer.js `extractAndMergeBlocks`: split the rects into black
rects and the first background rect; merge the black ones. -/
def extractAndMergeBlocks (rects : List RectData) (svgWidth svgHeight : ℚ) :
    List RectData × Option RectData :=
  let blackRects := extractBlackRects rects svgWidth svgHeight
  let backgroundRect := findBackgroundRect rects svgWidth svgHeight
  if blackRects.isEmpty then ([], backgroundRect)
  else (mergeIntoBlocks blackRects, backgroundRect)

/-- svgRowOptimizer.js `createOptimizedRowSVG`: the found background rect
(or a default white full-canvas one) followed by the merged rects. -/
def createOptimizedRowSVG (originalSvg : SVGDoc) (mergedRects : List RectData)
    (backgroundRect : Option RectData) : SVGDoc :=
  let bgElem :=
    match backgroundRect with
    | some bgr => SVGElem.rect bgr
    | none => SVGElem.rect ⟨0, 0, originalSvg.width, originalSvg.height, rgbWhite⟩
  { width := originalSvg.width, height := originalSvg.height,
    elements := bgElem :: mergedRects.map SVGElem.rect }

/-- svgRowOptimizer.js `optimizeSVGRows`: unchanged when the document has
no rect elements, otherwise extract, merge and rebuild. -/
def optimizeSVGRows (svg : SVGDoc) : SVGDoc :=
  let rects := rectElems svg
  if rects.isEmpty then svg
  else
    let em := extractAndMergeBlocks rects svg.width svg.height
    createOptimizedRowSVG svg em.1 em.2

/-! ### Hybrid generator (svgPngHybrid.js) and strategy policy (app.js) -/

/-- svgPngHybrid.js `generateHighResPNG`:
mimeType = transparent ? image/png : image/jpeg. -/
def hybridMimeType (transparent : Bool) : MimeType :=
  if transparent then .png else .jpeg

/-- svgPngHybrid.js `createSVGWrapper`: a size-by-size document, an
optional full-canvas background rect (skipped when the background is
transparent), and the embedded image sized to the display size. -/
def createSVGWrapper (mime : MimeType) (size : ℚ) (backgroundColor : Option RGB) : SVGDoc :=
  { width := size, height := size,
    elements :=
      (match backgroundColor with
        | some bg => [SVGElem.rect ⟨0, 0, size, size, bg⟩]
        | none => []) ++ [SVGElem.image mime size size] }

/-- svgPngHybrid.js `generateLightweightSVG`: wrap the high-resolution
raster (whose MIME type follows the transparency flag) with the background
suppressed when transparent. -/
def generateLightweightSVGDoc (size : ℚ) (backgroundColor : RGB)
    (transparent : Bool) : SVGDoc :=
  createSVGWrapper (hybridMimeType transparent) size
    (if transparent then none else some backgroundColor)

/-- qrGenerator.js `generateBitMatrix`: try the hinted encoder call; on
failure return the result of the single unhinted retry.  The two external
encoder attempts are embedded as their results (`none` = the attempt
threw). -/
def generateBitMatrix (hinted unhinted : Option BitMatrix) : Option BitMatrix :=
  match hinted with
  | some m => some m
  | none => unhinted

/-- The three optimization flags set by app.js `generateQRCode`. -/
structure OptimizationFlags where
  hybrid : Bool
  rowOptimize : Bool
  optimize : Bool
deriving DecidableEq, Repr

/-- app.js `generateQRCode` smart defaults: hybrid when the payload is
longer than 200 or the size is above 500; row optimization for medium
payloads when not hybrid; path optimization for short payloads otherwise. -/
def selectStrategy (dataLength canvasSize : ℕ) : OptimizationFlags :=
  let shouldUseHybrid := decide (200 < dataLength) || decide (500 < canvasSize)
  let shouldUseRowOptimize := decide (50 < dataLength) && decide (dataLength ≤ 200)
  let shouldUsePathOptimize := decide (dataLength ≤ 50)
  ⟨shouldUseHybrid,
   shouldUseRowOptimize && !shouldUseHybrid,
   shouldUsePathOptimize && !shouldUseHybrid && !shouldUseRowOptimize⟩

/-! ### Rendering semantics -/

/-- A point lies in a rectangle (half-open pixel semantics). -/
def inRect (g : RectGeom) (p : ℚ × ℚ) : Prop :=
  g.x ≤ p.1 ∧ p.1 < g.x + g.width ∧ g.y ≤ p.2 ∧ p.2 < g.y + g.height

instance (g : RectGeom) (p : ℚ × ℚ) : Decidable (inRect g p) := by
  unfold inRect
  exact inferInstance

/-- A point is dark under a list of filled rectangles. -/
def coveredByRects (rects : List RectData) (p : ℚ × ℚ) : Prop :=
  ∃ r ∈ rects, inRect (toGeom r) p

/-- A point is dark under an even-odd filled path whose sub-paths are
rectangles: the number of sub-paths containing it is odd. -/
def evenOddCovered (subpaths : List RectGeom) (p : ℚ × ℚ) : Prop :=
  Odd (subpaths.countP (fun g => decide (inRect g p)))

/-- The number of path elements of a document. -/
def countPathElems (doc : SVGDoc) : ℕ :=
  doc.elements.countP (fun e =>
    match e with
    | .path _ _ => true
    | _ => false)

/-- A full-canvas background fill rectangle of a document: a rect at the
origin spanning the whole canvas whose fill is background-classified. -/
def isFullCanvasBgRect (docWidth docHeight : ℚ) (e : SVGElem) : Bool :=
  match e with
  | .rect r =>
    decide (r.x = 0) && decide (r.y = 0) && decide (r.width = docWidth) &&
    decide (r.height = docHeight) && isBackgroundColor r.fill
  | _ => false

/-- The number of full-canvas background fill rectangles of a document. -/
def bgRectCount (doc : SVGDoc) : ℕ :=
  doc.elements.countP (isFullCanvasBgRect doc.width doc.height)
/-! ### Basic helper lemmas and concrete fixtures -/

theorem usedContains_iff (used : List (ℤ × ℤ)) (k : ℤ × ℤ) :
    usedContains used k = true ↔ k ∈ used := by
  simp [usedContains]

/-- A 1-by-1 matrix whose single module is dark. -/
def oneDarkMatrix : BitMatrix := ⟨1, 1, fun _ _ => true⟩

/-- A 1-by-1 matrix whose single module is light. -/
def allLightMatrix : BitMatrix := ⟨1, 1, fun _ _ => false⟩

/-- The dark rectangles extracted from a generated SVG of a fully dark
3-by-3 module block at module size 10, in generation order (x outer). -/
def threeByThreeRects : List RectData :=
  [⟨0, 0, 10, 10, rgbBlack⟩, ⟨0, 10, 10, 10, rgbBlack⟩, ⟨0, 20, 10, 10, rgbBlack⟩,
   ⟨10, 0, 10, 10, rgbBlack⟩, ⟨10, 10, 10, 10, rgbBlack⟩, ⟨10, 20, 10, 10, rgbBlack⟩,
   ⟨20, 0, 10, 10, rgbBlack⟩, ⟨20, 10, 10, 10, rgbBlack⟩, ⟨20, 20, 10, 10, rgbBlack⟩]

/-- An L-shaped dark set: modules (0,0), (0,1) and (1,0) at module size 10,
in generation order. -/
def ellRects : List RectData :=
  [⟨0, 0, 10, 10, rgbBlack⟩, ⟨0, 10, 10, 10, rgbBlack⟩, ⟨10, 0, 10, 10, rgbBlack⟩]

/-- Two rectangles of different module sizes (first 2-by-2, second 1-by-1). -/
def heteroRects : List RectData :=
  [⟨0, 0, 2, 2, rgbBlack⟩, ⟨2, 0, 1, 1, rgbBlack⟩]

/-- Basic generated SVG with one dark module, white background. -/
def oneDarkDoc : SVGDoc := createSVGString oneDarkMatrix 10 rgbBlack (some rgbWhite)

/-- Basic generated SVG with no dark module, white background. -/
def emptyLightDoc : SVGDoc := createSVGString allLightMatrix 10 rgbBlack (some rgbWhite)

theorem darkCells_oneDark : darkCells oneDarkMatrix = [(0, 0)] := by decide

theorem darkCells_allLight : darkCells allLightMatrix = [] := by decide

/-! ### Claim C4 -/

/-- Claim C4 counterexample: on an input whose rectangles have different
sizes, the module size estimate of the grid construction is the first
rectangle's min(width, height) = 2, even though a rectangle with strictly
smaller width and height (1) is observed later, so the estimate is not the
minimum across all input rectangles. -/
theorem C4_counterexample :
    (createGridFromRectangles heteroRects).moduleSize = 2 ∧
    ∃ r ∈ heteroRects, min r.width r.height < 2 := by
  constructor
  · norm_num [createGridFromRectangles, heteroRects]
  · exact ⟨⟨2, 0, 1, 1, rgbBlack⟩, by norm_num [heteroRects], by norm_num⟩

/-- Claim C4 (amended): the module size estimate of the grid construction
is min(width, height) of the FIRST rectangle of the input list, and every
rectangle's grid coordinate divides its offset from the minimum corner by
that first-rectangle estimate. -/
theorem C4_first_rect_module_size (firstRect : RectData) (rest : List RectData) :
    (createGridFromRectangles (firstRect :: rest)).moduleSize =
      min firstRect.width firstRect.height ∧
    (createGridFromRectangles (firstRect :: rest)).cells =
      (firstRect :: rest).foldl
        (fun acc r => insertCell acc
          (rectKey (min firstRect.width firstRect.height)
            (createGridFromRectangles (firstRect :: rest)).minX
            (createGridFromRectangles (firstRect :: rest)).minY r) r.fill) [] :=
  ⟨rfl, rfl⟩

/-! ### Claim C5 -/

theorem scanRow_true_snd (avail : ℤ × ℤ → Bool) (y : ℤ) :
    ∀ (w : ℕ) (x : ℤ), (scanRow avail y x w).1 = true → (scanRow avail y x w).2 = w := by
  intro w
  induction w with
  | zero => intro x _; rfl
  | succ n ih =>
    intro x h
    by_cases ha : avail (x, y) = true
    · simp only [scanRow, ha, if_true] at h ⊢
      exact congrArg (· + 1) (ih (x + 1) h)
    · simp only [scanRow, Bool.not_eq_true] at ha
      simp [scanRow, ha] at h

theorem heightLoop_snd (avail : ℤ × ℤ → Bool) (x0 y0 : ℤ) :
    ∀ (fuel mh w : ℕ), (heightLoop avail x0 y0 fuel mh w).2 = w := by
  intro fuel
  induction fuel with
  | zero => intro mh w; rfl
  | succ n ih =>
    intro mh w
    by_cases hs : (scanRow avail (y0 + (mh + 1) - 1) x0 w).1 = true
    · have h2 := scanRow_true_snd avail (y0 + (mh + 1) - 1) w x0 hs
      simp only [heightLoop, hs, if_true, h2, min_self]
      exact ih (mh + 1) w
    · simp only [Bool.not_eq_true] at hs
      simp [heightLoop, hs]

set_option maxHeartbeats 2000000 in
theorem ellGrid_eval :
    createGridFromRectangles ellRects =
      ⟨[((0, 0), rgbBlack), ((0, 1), rgbBlack), ((1, 0), rgbBlack)], 10, 0, 0⟩ := by
  norm_num [createGridFromRectangles, ellRects, insertCell, lookupCell, rectKey,
    rgbBlack, round_eq, Prod.ext_iff, -Prod.mk_zero_zero, -Prod.mk_one_one]

set_option maxHeartbeats 2000000 in
theorem ellFirstBlock_eval :
    findLargestRectangleFrom (createGridFromRectangles ellRects) [] 0 0 =
      (some ⟨0, 0, 20, 10, rgbBlack⟩, [(0, 0), (1, 0)]) := by
  rw [ellGrid_eval]
  norm_num [findLargestRectangleFrom, insertCell, lookupCell, rectKey, usedContains,
    availCell, runRight, scanRow, heightLoop, blockKeys, rowKeys, rgbBlack, round_eq,
    Prod.ext_iff, -Prod.mk_zero_zero, -Prod.mk_one_one]

/-- Claim C5 counterexample: on the L-shaped grid, growing from (0,0) the
initial width is 2; row 1 has a non-empty available run of length 1
(cell (0,1) exists) which is shorter than 2, yet the algorithm does not
shrink the width and continue downward: it stops, emitting a block of
width 20 and height 10 (a single module row). -/
theorem C5_counterexample :
    (findLargestRectangleFrom (createGridFromRectangles ellRects) [] 0 0).1 =
      some ⟨0, 0, 20, 10, rgbBlack⟩ ∧
    (lookupCell (createGridFromRectangles ellRects).cells (0, 1)).isSome = true := by
  rw [ellFirstBlock_eval, ellGrid_eval]
  norm_num [lookupCell, Prod.ext_iff, -Prod.mk_zero_zero, -Prod.mk_one_one]

/-- Claim C5 (amended): during downward growth the width is never shrunk —
the final width always equals the width the loop started with (the first
row's maximal run), and as soon as the candidate row's available span is
not fully available (even when it is non-empty) the loop stops, keeping
the accepted height. -/
theorem C5_width_never_shrinks (avail : ℤ × ℤ → Bool) (x0 y0 : ℤ) (fuel mh w : ℕ) :
    (heightLoop avail x0 y0 fuel mh w).2 = w ∧
    ((scanRow avail (y0 + (mh + 1) - 1) x0 w).1 = false →
      heightLoop avail x0 y0 (fuel + 1) mh w = (mh, w)) := by
  refine ⟨heightLoop_snd avail x0 y0 fuel mh w, fun hs => ?_⟩
  simp [heightLoop, hs]

/-- Witness for C5_width_never_shrinks at a concrete grid: only (0,0) is
available, the row scan of width 2 fails, and the loop returns (0, 2). -/
theorem C5_width_never_shrinks_witness :
    heightLoop (fun k => decide (k = (0, 0))) 0 0 1 0 2 = (0, 2) :=
  (C5_width_never_shrinks (fun k => decide (k = (0, 0))) 0 0 0 0 2).2 (by decide)

/-! ### Claim C3 -/

/-- The cell list of the 3-by-3 grid, in insertion (generation) order. -/
def threeCells : List ((ℤ × ℤ) × RGB) :=
  [((0, 0), rgbBlack), ((0, 1), rgbBlack), ((0, 2), rgbBlack),
   ((1, 0), rgbBlack), ((1, 1), rgbBlack), ((1, 2), rgbBlack),
   ((2, 0), rgbBlack), ((2, 1), rgbBlack), ((2, 2), rgbBlack)]

set_option maxHeartbeats 4000000 in
set_option maxRecDepth 10000 in
theorem threeGrid_eval :
    createGridFromRectangles threeByThreeRects = ⟨threeCells, 10, 0, 0⟩ := by
  norm_num [createGridFromRectangles, threeByThreeRects, threeCells, insertCell,
    lookupCell, rectKey, rgbBlack, round_eq, Prod.ext_iff, -Prod.mk_zero_zero,
    -Prod.mk_one_one]

set_option maxHeartbeats 4000000 in
set_option maxRecDepth 10000 in
theorem threePositions_eval :
    sortPositions (threeCells.map Prod.fst) =
      [(0, 0), (1, 0), (2, 0), (0, 1), (1, 1), (2, 1), (0, 2), (1, 2), (2, 2)] := by
  norm_num [sortPositions, threeCells, List.mergeSort, Prod.ext_iff,
    -Prod.mk_zero_zero, -Prod.mk_one_one]

set_option maxHeartbeats 4000000 in
set_option maxRecDepth 10000 in
theorem threeFirstBlock_eval :
    findLargestRectangleFrom ⟨threeCells, 10, 0, 0⟩ [] 0 0 =
      (some ⟨0, 0, 30, 30, rgbBlack⟩,
       [(0, 0), (1, 0), (2, 0), (0, 1), (1, 1), (2, 1), (0, 2), (1, 2), (2, 2)]) := by
  norm_num [findLargestRectangleFrom, threeCells, lookupCell, usedContains, availCell,
    runRight, scanRow, heightLoop, blockKeys, rowKeys, rgbBlack, Prod.ext_iff,
    -Prod.mk_zero_zero, -Prod.mk_one_one]

set_option maxHeartbeats 4000000 in
set_option maxRecDepth 10000 in
theorem threeByThree_eval :
    mergeIntoBlocks threeByThreeRects = [⟨0, 0, 30, 30, rgbBlack⟩] := by
  have h1 : mergeIntoBlocks threeByThreeRects =
      findLargestBlocks (createGridFromRectangles threeByThreeRects) threeByThreeRects := rfl
  rw [h1, threeGrid_eval]
  simp only [findLargestBlocks]
  rw [threePositions_eval]
  norm_num [processPositions, usedContains, threeFirstBlock_eval, Prod.ext_iff,
    -Prod.mk_zero_zero, -Prod.mk_one_one]

/-- Claim C3 counterexample: on a fully dark 3-by-3 module block the
merge strategy of svgRowOptimizer.js does not emit three one-per-row
rectangles: it emits a single rectangle. -/
theorem C3_counterexample : (mergeIntoBlocks threeByThreeRects).length ≠ 3 := by
  simp [threeByThree_eval]

/-- Claim C3 (amended): the strategy implemented by svgRowOptimizer.js
merges across rows into maximal rectangular blocks: on a fully dark
3-by-3 module block it emits exactly one rectangle covering all nine
modules. -/
theorem C3_merges_across_rows :
    mergeIntoBlocks threeByThreeRects = [⟨0, 0, 30, 30, rgbBlack⟩] :=
  threeByThree_eval

/-! ### Claim C7 -/

/-- Claim C7: the default strategy selection picks the hybrid (raster
embed) mode exactly when the payload length exceeds 200 or the canvas size
exceeds 500; otherwise row merging exactly for payload lengths in
(50, 200]; otherwise (length at most 50) path merging; exactly one flag is
set; and the hybrid wrapper document holds exactly a background rect and
one image reference. -/
theorem C7_strategy_policy (L s : ℕ) (mime : MimeType) (size : ℚ) (bg : RGB) :
    ((selectStrategy L s).hybrid = true ↔ (200 < L ∨ 500 < s)) ∧
    ((selectStrategy L s).rowOptimize = true ↔
      (¬(200 < L ∨ 500 < s) ∧ 50 < L ∧ L ≤ 200)) ∧
    ((selectStrategy L s).optimize = true ↔ (¬(200 < L ∨ 500 < s) ∧ L ≤ 50)) ∧
    ((if (selectStrategy L s).hybrid = true then 1 else 0) +
      (if (selectStrategy L s).rowOptimize = true then 1 else 0) +
      (if (selectStrategy L s).optimize = true then 1 else 0) = 1) ∧
    (createSVGWrapper mime size (some bg)).elements =
      [SVGElem.rect ⟨0, 0, size, size, bg⟩, SVGElem.image mime size size] := by
  refine ⟨?_, ?_, ?_, ?_, rfl⟩ <;>
  by_cases h1 : 200 < L <;> by_cases h2 : 500 < s <;> by_cases h3 : 50 < L <;>
    by_cases h4 : L ≤ 200 <;>
    simp [selectStrategy, h1, h2, h3, h4] <;> omega

/-! ### Claim C9 -/

/-- Claim C9: the generator returns the hinted encoder result when that
attempt succeeds, retries exactly once without hints when it fails (the
result is then exactly the unhinted attempt's result), and the overall
call fails only when both attempts fail. -/
theorem C9_encoder_retry (hinted unhinted : Option BitMatrix) :
    (generateBitMatrix hinted unhinted = none ↔ hinted = none ∧ unhinted = none) ∧
    (∀ m, hinted = some m → generateBitMatrix hinted unhinted = some m) ∧
    (hinted = none → generateBitMatrix hinted unhinted = unhinted) := by
  cases hinted <;> simp [generateBitMatrix]

/-- Witness for C9_encoder_retry: a failed hinted attempt followed by a
successful unhinted attempt yields the unhinted result. -/
theorem C9_encoder_retry_witness :
    generateBitMatrix none (some oneDarkMatrix) = some oneDarkMatrix :=
  (C9_encoder_retry none (some oneDarkMatrix)).2.2 rfl

/-! ### Claim C10 -/

/-- Claim C10: the hybrid strategy encodes the embedded raster as PNG
exactly when the background is transparent and as JPEG otherwise, and the
wrapped document embeds an image with exactly that MIME type. -/
theorem C10_hybrid_mime (t : Bool) (size : ℚ) (bg : RGB) :
    (hybridMimeType t = MimeType.png ↔ t = true) ∧
    (hybridMimeType t = MimeType.jpeg ↔ t = false) ∧
    SVGElem.image (hybridMimeType t) size size ∈
      (generateLightweightSVGDoc size bg t).elements := by
  cases t <;> simp [hybridMimeType, generateLightweightSVGDoc, createSVGWrapper]
/-! ### Claim C2 -/

/-- Claim C2 counterexample: on a generated document with zero dark
rectangles (all-light matrix, white background) the path optimizer returns
the unoptimized input unchanged; the result contains zero path elements,
not the single path element the claim requires. -/
theorem C2_counterexample :
    optimizeSVG emptyLightDoc = emptyLightDoc ∧
    countPathElems (optimizeSVG emptyLightDoc) = 0 := by
  have h : optimizeSVG emptyLightDoc = emptyLightDoc := by
    norm_num [optimizeSVG, emptyLightDoc, createSVGString, moduleRects, darkCells_allLight,
      rectElems, convertRectsToPath, isBlackColor, rgbWhite, rgbBlack, toGeom,
      List.filterMap_cons]
  refine ⟨h, ?_⟩
  rw [h]
  norm_num [countPathElems, emptyLightDoc, createSVGString, moduleRects, darkCells_allLight]

/-- Claim C2 (amended): the path optimizer emits exactly one path element
whenever the conversion succeeds (at least one black in-bounds rectangle);
when the conversion fails — in particular on an empty dark set — it
returns the input document unchanged (the valid background-only document),
not a one-path document. -/
theorem C2_single_path_element (doc : SVGDoc) :
    (convertRectsToPath (rectElems doc) doc.width doc.height = none →
      optimizeSVG doc = doc) ∧
    (∀ pd, convertRectsToPath (rectElems doc) doc.width doc.height = some pd →
      countPathElems (optimizeSVG doc) = 1) := by
  constructor
  · intro h
    by_cases he : (rectElems doc).isEmpty <;> simp [optimizeSVG, he, h]
  · intro pd h
    have he : (rectElems doc).isEmpty = false := by
      rcases hn : rectElems doc with _ | ⟨r, rs⟩
      · rw [hn] at h
        simp [convertRectsToPath] at h
      · simp
    simp [optimizeSVG, he, h, createOptimizedSVG, countPathElems]

theorem moduleRects_oneDark :
    moduleRects oneDarkMatrix 10 rgbBlack = [⟨0, 0, 10, 10, rgbBlack⟩] := by
  norm_num [moduleRects, darkCells_oneDark, show ((oneDarkMatrix.width : ℚ) = 1) from by
    norm_num [oneDarkMatrix]]

theorem oneDarkDoc_eval :
    oneDarkDoc = ⟨10, 10, [SVGElem.rect ⟨0, 0, 10, 10, rgbWhite⟩,
      SVGElem.rect ⟨0, 0, 10, 10, rgbBlack⟩]⟩ := by
  rw [oneDarkDoc, createSVGString, moduleRects_oneDark]
  rfl

/-- Witness for C2_single_path_element: a generated document with one dark
module converts successfully and the optimized result has exactly one
path element. -/
theorem C2_single_path_element_witness :
    countPathElems (optimizeSVG oneDarkDoc) = 1 :=
  (C2_single_path_element oneDarkDoc).2 [⟨0, 0, 10, 10⟩]
    (by norm_num [oneDarkDoc_eval, rectElems, convertRectsToPath, isBlackColor,
      rgbWhite, rgbBlack, toGeom, List.mergeSort, List.filterMap_cons])

/-! ### Claim C6 -/

/-- Claim C6: if the grid traversal yields zero blocks the block merger
returns the unmodified input rectangles as the result; and the strategies
return empty or minimal geometry on well-formed degenerate input instead
of failing: the empty rectangle list merges to the empty list, a single
square module merges to exactly itself, extraction with no black rects
merges to the empty list, and on documents without rect elements both
optimizers return the input unchanged. -/
theorem C6_fallback_and_degenerate :
    (∀ (gd : GridData) (orig : List RectData),
      (processPositions gd (sortPositions (gd.cells.map Prod.fst)) [] []).1 = [] →
      findLargestBlocks gd orig = orig) ∧
    mergeIntoBlocks [] = [] ∧
    (∀ r : RectData, r.width = r.height → mergeIntoBlocks [r] = [r]) ∧
    (∀ (rects : List RectData) (w h : ℚ), extractBlackRects rects w h = [] →
      extractAndMergeBlocks rects w h = ([], findBackgroundRect rects w h)) ∧
    (∀ doc : SVGDoc, rectElems doc = [] →
      optimizeSVG doc = doc ∧ optimizeSVGRows doc = doc) := by
  refine ⟨?_, rfl, ?_, ?_, ?_⟩
  · intro gd orig h
    simp [findLargestBlocks, h]
  · intro r hr
    obtain ⟨xr, yr, wr, hr2, fr⟩ := r
    simp only at hr
    subst hr
    have hms : min wr wr = wr := min_self wr
    simp [mergeIntoBlocks, createGridFromRectangles, hms, rectKey, insertCell, lookupCell,
      findLargestBlocks, sortPositions, List.mergeSort, processPositions,
      findLargestRectangleFrom, usedContains, availCell, runRight, scanRow, heightLoop,
      blockKeys, rowKeys, Prod.ext_iff, -Prod.mk_zero_zero, -Prod.mk_one_one,
      sub_self, zero_div, round_zero]
  · intro rects w h hb
    simp [extractAndMergeBlocks, hb]
  · intro doc hd
    constructor <;> simp [optimizeSVG, optimizeSVGRows, hd]

/-- Witness for C6_fallback_and_degenerate: the empty grid traversal
triggers the fallback, and a single 10-by-10 module merges to itself. -/
theorem C6_fallback_and_degenerate_witness :
    findLargestBlocks ⟨[], 1, 0, 0⟩ ellRects = ellRects ∧
    mergeIntoBlocks [⟨0, 0, 10, 10, rgbBlack⟩] = [⟨0, 0, 10, 10, rgbBlack⟩] :=
  ⟨C6_fallback_and_degenerate.1 ⟨[], 1, 0, 0⟩ ellRects
      (by simp [sortPositions, List.mergeSort, processPositions]),
   C6_fallback_and_degenerate.2.2.1 ⟨0, 0, 10, 10, rgbBlack⟩ rfl⟩
/-! ### Helper lemmas for the coverage invariant: association-list grid -/

theorem lookupCell_isSome_iff (cells : List ((ℤ × ℤ) × RGB)) (k : ℤ × ℤ) :
    (lookupCell cells k).isSome = true ↔ k ∈ cells.map Prod.fst := by
  induction cells with
  | nil => simp [lookupCell]
  | cons c rest ih =>
    simp only [lookupCell, List.map_cons, List.mem_cons]
    by_cases h : c.1 = k
    · simp [h]
    · rw [if_neg h, ih]
      constructor
      · exact fun hm => Or.inr hm
      · rintro (hm | hm)
        · exact absurd hm.symm h
        · exact hm

theorem lookupCell_mem_values (cells : List ((ℤ × ℤ) × RGB)) (k : ℤ × ℤ) (v : RGB) :
    lookupCell cells k = some v → ∃ c ∈ cells, c.2 = v := by
  induction cells with
  | nil => intro h; simp [lookupCell] at h
  | cons c rest ih =>
    intro h
    by_cases hc : c.1 = k
    · rw [lookupCell, if_pos hc] at h
      exact ⟨c, List.mem_cons_self c rest, Option.some_injective _ h⟩
    · rw [lookupCell, if_neg hc] at h
      obtain ⟨c', hc', hv⟩ := ih h
      exact ⟨c', List.mem_cons_of_mem c hc', hv⟩

theorem lookupCell_isSome_map (f : ((ℤ × ℤ) × RGB) → ((ℤ × ℤ) × RGB))
    (hf : ∀ c, (f c).1 = c.1) (cells : List ((ℤ × ℤ) × RGB)) (k : ℤ × ℤ) :
    (lookupCell (cells.map f) k).isSome = (lookupCell cells k).isSome := by
  induction cells with
  | nil => rfl
  | cons c rest ih =>
    simp only [List.map_cons, lookupCell, hf c]
    by_cases h : c.1 = k
    · simp [h]
    · simp [h, ih]

theorem lookupCell_append_isSome (l1 l2 : List ((ℤ × ℤ) × RGB)) (k : ℤ × ℤ) :
    (lookupCell (l1 ++ l2) k).isSome =
      ((lookupCell l1 k).isSome || (lookupCell l2 k).isSome) := by
  induction l1 with
  | nil => simp [lookupCell]
  | cons c rest ih =>
    by_cases h : c.1 = k <;> simp [lookupCell, h, ih]

theorem insertCell_isSome (cells : List ((ℤ × ℤ) × RGB)) (k : ℤ × ℤ) (v : RGB)
    (k' : ℤ × ℤ) :
    (lookupCell (insertCell cells k v) k').isSome = true ↔
      ((lookupCell cells k').isSome = true ∨ k' = k) := by
  unfold insertCell
  by_cases h : (lookupCell cells k).isSome = true
  · rw [if_pos h]
    rw [lookupCell_isSome_map (fun c => if c.1 = k then (k, v) else c)
      (fun c => by by_cases hc : c.1 = k <;> simp [hc])]
    constructor
    · exact Or.inl
    · rintro (hh | rfl)
      · exact hh
      · exact h
  · rw [if_neg h]
    rw [show (lookupCell (cells ++ [(k, v)]) k').isSome = true ↔
        ((lookupCell cells k').isSome || (lookupCell [(k, v)] k').isSome) = true from by
      rw [lookupCell_append_isSome]]
    rw [Bool.or_eq_true]
    apply or_congr Iff.rfl
    by_cases hk : k = k'
    · subst hk
      simp [lookupCell]
    · constructor
      · intro hl
        simp only [lookupCell, if_neg hk] at hl
        exact absurd hl (by simp)
      · intro he
        exact absurd he.symm hk

theorem insertCell_mem (cells : List ((ℤ × ℤ) × RGB)) (k : ℤ × ℤ) (v : RGB) :
    ∀ c' ∈ insertCell cells k v, (∃ c ∈ cells, c.2 = c'.2) ∨ c'.2 = v := by
  unfold insertCell
  by_cases h : (lookupCell cells k).isSome = true
  · rw [if_pos h]
    intro c' hc'
    obtain ⟨c, hc, rfl⟩ := List.mem_map.mp hc'
    by_cases hck : c.1 = k
    · right
      simp [hck]
    · left
      exact ⟨c, hc, by simp [hck]⟩
  · rw [if_neg h]
    intro c' hc'
    rcases List.mem_append.mp hc' with hm | hm
    · exact Or.inl ⟨c', hm, rfl⟩
    · right
      rcases List.mem_singleton.mp hm with rfl
      rfl

theorem grid_foldl_keys (keyOf : RectData → ℤ × ℤ) (rects : List RectData) :
    ∀ (acc : List ((ℤ × ℤ) × RGB)) (k : ℤ × ℤ),
      (lookupCell (rects.foldl (fun a r => insertCell a (keyOf r) r.fill) acc) k).isSome
          = true ↔
        ((lookupCell acc k).isSome = true ∨ ∃ r ∈ rects, keyOf r = k) := by
  induction rects with
  | nil => simp
  | cons r rest ih =>
    intro acc k
    simp only [List.foldl_cons]
    rw [ih]
    rw [insertCell_isSome]
    constructor
    · rintro ((h | h) | h)
      · exact Or.inl h
      · exact Or.inr ⟨r, List.mem_cons_self r rest, h.symm⟩
      · obtain ⟨r', hr', hk⟩ := h
        exact Or.inr ⟨r', List.mem_cons_of_mem r hr', hk⟩
    · rintro (h | h)
      · exact Or.inl (Or.inl h)
      · obtain ⟨r', hr', hk⟩ := h
        rcases List.mem_cons.mp hr' with rfl | hr'
        · exact Or.inl (Or.inr hk.symm)
        · exact Or.inr ⟨r', hr', hk⟩

theorem grid_foldl_values (keyOf : RectData → ℤ × ℤ) (rects : List RectData) :
    ∀ (acc : List ((ℤ × ℤ) × RGB)) (k : ℤ × ℤ) (v : RGB),
      lookupCell (rects.foldl (fun a r => insertCell a (keyOf r) r.fill) acc) k = some v →
        ((∃ c ∈ acc, c.2 = v) ∨ ∃ r ∈ rects, v = r.fill) := by
  induction rects with
  | nil =>
    intro acc k v h
    exact Or.inl (lookupCell_mem_values acc k v h)
  | cons r rest ih =>
    intro acc k v h
    simp only [List.foldl_cons] at h
    rcases ih _ k v h with h1 | h2
    · obtain ⟨c, hc, hv⟩ := h1
      rcases insertCell_mem acc (keyOf r) r.fill c hc with ⟨c0, hc0, hv0⟩ | hv0
      · exact Or.inl ⟨c0, hc0, hv0.trans hv⟩
      · exact Or.inr ⟨r, List.mem_cons_self r rest, hv.symm.trans hv0⟩
    · obtain ⟨r', hr', hv⟩ := h2
      exact Or.inr ⟨r', List.mem_cons_of_mem r hr', hv⟩
/-! ### Dark cells and module rectangles -/

theorem mem_darkCells (M : BitMatrix) (c : ℕ × ℕ) :
    c ∈ darkCells M ↔ c.1 < M.width ∧ c.2 < M.height ∧ M.get c.1 c.2 = true := by
  obtain ⟨a, b⟩ := c
  simp only [darkCells, List.mem_flatMap, List.mem_filterMap, List.mem_range]
  constructor
  · rintro ⟨x, hx, y, hy, hif⟩
    by_cases hg : M.get x y = true
    · rw [if_pos hg] at hif
      have h2 := Option.some.inj hif
      rw [Prod.ext_iff] at h2
      simp only at h2
      obtain ⟨rfl, rfl⟩ := h2
      exact ⟨hx, hy, hg⟩
    · rw [if_neg hg] at hif
      simp at hif
  · rintro ⟨ha, hb, hg⟩
    exact ⟨a, ha, b, hb, by rw [if_pos hg]⟩

theorem darkCells_nodup (M : BitMatrix) : (darkCells M).Nodup := by
  rw [darkCells, List.nodup_flatMap]
  constructor
  · intro x _
    apply List.Nodup.filterMap
    · intro a a' b hb hb'
      have h1 : b = (x, a) := by
        by_cases hg : M.get x a = true
        · rw [if_pos hg] at hb
          exact (Option.mem_some_iff.mp hb).symm
        · rw [if_neg hg] at hb
          simp at hb
      have h2 : b = (x, a') := by
        by_cases hg : M.get x a' = true
        · rw [if_pos hg] at hb'
          exact (Option.mem_some_iff.mp hb').symm
        · rw [if_neg hg] at hb'
          simp at hb'
      exact (Prod.ext_iff.mp (h1.symm.trans h2)).2
    · exact List.nodup_range _
  · have hp : List.Pairwise (· < ·) (List.range M.width) := List.pairwise_lt_range _
    apply hp.imp
    intro x x' hlt
    intro b hb hb'
    obtain ⟨y, _, hy⟩ := List.mem_filterMap.mp hb
    obtain ⟨y', _, hy'⟩ := List.mem_filterMap.mp hb'
    have h1 : b.1 = x := by
      by_cases hg : M.get x y = true
      · rw [if_pos hg] at hy
        exact (congrArg Prod.fst (Option.some.inj hy)).symm
      · rw [if_neg hg] at hy
        simp at hy
    have h2 : b.1 = x' := by
      by_cases hg : M.get x' y' = true
      · rw [if_pos hg] at hy'
        exact (congrArg Prod.fst (Option.some.inj hy')).symm
      · rw [if_neg hg] at hy'
        simp at hy'
    exact hlt.ne (h1.symm.trans h2)

theorem mem_moduleRects (M : BitMatrix) (size : ℚ) (fg : RGB) (r : RectData) :
    r ∈ moduleRects M size fg ↔ ∃ c ∈ darkCells M,
      r = ⟨(c.1 : ℚ) * (size / (M.width : ℚ)), (c.2 : ℚ) * (size / (M.width : ℚ)),
           size / (M.width : ℚ), size / (M.width : ℚ), fg⟩ := by
  simp only [moduleRects, List.mem_map]
  constructor
  · rintro ⟨c, hc, rfl⟩
    exact ⟨c, hc, rfl⟩
  · rintro ⟨c, hc, rfl⟩
    exact ⟨c, hc, rfl⟩

/-! ### Floor characterizations of point membership -/

theorem interval_floor_iff (m : ℚ) (hm : 0 < m) (ax : ℚ) (x0 : ℤ) (w : ℕ) (t : ℚ) :
    (ax + x0 * m ≤ t ∧ t < ax + x0 * m + (w : ℚ) * m) ↔
      (x0 ≤ ⌊(t - ax) / m⌋ ∧ ⌊(t - ax) / m⌋ < x0 + w) := by
  rw [Int.le_floor, Int.floor_lt]
  rw [le_div_iff₀ hm, div_lt_iff₀ hm]
  push_cast
  constructor
  · rintro ⟨h1, h2⟩
    exact ⟨by linarith, by linarith⟩
  · rintro ⟨h1, h2⟩
    exact ⟨by linarith, by linarith⟩

theorem inRect_block_iff (m : ℚ) (hm : 0 < m) (ax ay : ℚ) (x0 y0 : ℤ) (w h : ℕ)
    (p : ℚ × ℚ) :
    inRect ⟨ax + x0 * m, ay + y0 * m, (w : ℚ) * m, (h : ℚ) * m⟩ p ↔
      (x0 ≤ ⌊(p.1 - ax) / m⌋ ∧ ⌊(p.1 - ax) / m⌋ < x0 + w ∧
       y0 ≤ ⌊(p.2 - ay) / m⌋ ∧ ⌊(p.2 - ay) / m⌋ < y0 + h) := by
  unfold inRect
  constructor
  · rintro ⟨h1, h2, h3, h4⟩
    obtain ⟨a1, a2⟩ := (interval_floor_iff m hm ax x0 w p.1).mp ⟨h1, h2⟩
    obtain ⟨b1, b2⟩ := (interval_floor_iff m hm ay y0 h p.2).mp ⟨h3, h4⟩
    exact ⟨a1, a2, b1, b2⟩
  · rintro ⟨a1, a2, b1, b2⟩
    obtain ⟨h1, h2⟩ := (interval_floor_iff m hm ax x0 w p.1).mpr ⟨a1, a2⟩
    obtain ⟨h3, h4⟩ := (interval_floor_iff m hm ay y0 h p.2).mpr ⟨b1, b2⟩
    exact ⟨h1, h2, h3, h4⟩

theorem inRect_cell_iff (m : ℚ) (hm : 0 < m) (ax ay : ℚ) (x0 y0 : ℤ) (p : ℚ × ℚ) :
    inRect ⟨ax + x0 * m, ay + y0 * m, m, m⟩ p ↔
      (⌊(p.1 - ax) / m⌋ = x0 ∧ ⌊(p.2 - ay) / m⌋ = y0) := by
  have hb := inRect_block_iff m hm ax ay x0 y0 1 1 p
  rw [show ((1 : ℕ) : ℚ) * m = m from by norm_num] at hb
  rw [hb]
  push_cast
  omega

theorem inRect_module_iff (m : ℚ) (hm : 0 < m) (a b : ℕ) (p : ℚ × ℚ) :
    inRect ⟨(a : ℚ) * m, (b : ℚ) * m, m, m⟩ p ↔
      (⌊p.1 / m⌋ = (a : ℤ) ∧ ⌊p.2 / m⌋ = (b : ℤ)) := by
  have hc := inRect_cell_iff m hm 0 0 (a : ℤ) (b : ℤ) p
  rw [zero_add, zero_add] at hc
  rw [show (((a : ℤ) : ℚ)) = (a : ℚ) from by push_cast; rfl,
      show (((b : ℤ) : ℚ)) = (b : ℚ) from by push_cast; rfl] at hc
  rw [sub_zero, sub_zero] at hc
  exact hc

theorem coveredBy_moduleRects_iff (M : BitMatrix) (size : ℚ) (fg : RGB)
    (hm : 0 < size / (M.width : ℚ)) (p : ℚ × ℚ) :
    coveredByRects (moduleRects M size fg) p ↔
      ∃ c ∈ darkCells M, ⌊p.1 / (size / (M.width : ℚ))⌋ = (c.1 : ℤ) ∧
        ⌊p.2 / (size / (M.width : ℚ))⌋ = (c.2 : ℤ) := by
  unfold coveredByRects
  constructor
  · rintro ⟨r, hr, hin⟩
    obtain ⟨c, hc, rfl⟩ := (mem_moduleRects M size fg r).mp hr
    refine ⟨c, hc, ?_⟩
    exact (inRect_module_iff _ hm c.1 c.2 p).mp hin
  · rintro ⟨c, hc, hfl⟩
    refine ⟨_, (mem_moduleRects M size fg _).mpr ⟨c, hc, rfl⟩, ?_⟩
    exact (inRect_module_iff _ hm c.1 c.2 p).mpr hfl
/-! ### Loop lemmas for the block traversal -/

theorem runRight_avail (avail : ℤ × ℤ → Bool) (y : ℤ) :
    ∀ (fuel : ℕ) (x : ℤ) (i : ℕ), i < runRight avail y x fuel →
      avail (x + (i : ℤ), y) = true := by
  intro fuel
  induction fuel with
  | zero => intro x i h; simp [runRight] at h
  | succ n ih =>
    intro x i h
    rw [runRight] at h
    by_cases ha : avail (x, y) = true
    · rw [if_pos ha] at h
      match i with
      | 0 => simpa using ha
      | j + 1 =>
        have hj : j < runRight avail y (x + 1) n := by omega
        have h3 := ih (x + 1) j hj
        have h4 : x + ((j + 1 : ℕ) : ℤ) = x + 1 + (j : ℤ) := by push_cast; ring
        rw [h4]
        exact h3
    · rw [if_neg ha] at h
      omega

theorem runRight_pos (avail : ℤ × ℤ → Bool) (y x : ℤ) (fuel : ℕ)
    (ha : avail (x, y) = true) (hf : 0 < fuel) : 0 < runRight avail y x fuel := by
  match fuel, hf with
  | n + 1, _ =>
    rw [runRight, if_pos ha]
    omega

theorem scanRow_fst_true_iff (avail : ℤ × ℤ → Bool) (y : ℤ) :
    ∀ (w : ℕ) (x : ℤ), (scanRow avail y x w).1 = true ↔
      ∀ i : ℕ, i < w → avail (x + (i : ℤ), y) = true := by
  intro w
  induction w with
  | zero => intro x; simp [scanRow]
  | succ n ih =>
    intro x
    by_cases ha : avail (x, y) = true
    · rw [scanRow, if_pos ha]
      dsimp only
      rw [ih (x + 1)]
      constructor
      · intro h i hi
        match i with
        | 0 => simpa using ha
        | j + 1 =>
          have h3 := h j (by omega)
          have h4 : x + ((j + 1 : ℕ) : ℤ) = x + 1 + (j : ℤ) := by push_cast; ring
          rw [h4]
          exact h3
      · intro h i hi
        have h3 := h (i + 1) (by omega)
        have h4 : x + ((i + 1 : ℕ) : ℤ) = x + 1 + (i : ℤ) := by push_cast; ring
        rw [h4] at h3
        exact h3
    · rw [scanRow, if_neg ha]
      simp only [Bool.false_eq_true, false_iff]
      intro h
      exact ha (by simpa using h 0 (by omega))

theorem heightLoop_fst_le (avail : ℤ × ℤ → Bool) (x0 y0 : ℤ) :
    ∀ (fuel mh w : ℕ), mh ≤ (heightLoop avail x0 y0 fuel mh w).1 := by
  intro fuel
  induction fuel with
  | zero => intro mh w; exact le_refl _
  | succ n ih =>
    intro mh w
    rw [heightLoop]
    split
    · exact le_trans (Nat.le_succ mh) (ih (mh + 1) _)
    · exact le_refl _

theorem heightLoop_fst_pos (avail : ℤ × ℤ → Bool) (x0 y0 : ℤ) (fuel w : ℕ)
    (h : ∀ i : ℕ, i < w → avail (x0 + (i : ℤ), y0) = true) (hf : 0 < fuel) :
    0 < (heightLoop avail x0 y0 fuel 0 w).1 := by
  match fuel, hf with
  | n + 1, _ =>
    rw [heightLoop]
    have hs : (scanRow avail (y0 + ((0 : ℕ) + 1) - 1) x0 w).1 = true := by
      rw [show (y0 + (((0 : ℕ) : ℤ) + 1) - 1 : ℤ) = y0 from by push_cast; ring]
      exact (scanRow_fst_true_iff avail y0 w x0).mpr h
    split
    · calc 0 < 0 + 1 := by omega
        _ ≤ _ := heightLoop_fst_le avail x0 y0 n (0 + 1) _
    · next hfalse =>
        exact absurd hs hfalse

theorem heightLoop_span_avail (avail : ℤ × ℤ → Bool) (x0 y0 : ℤ) :
    ∀ (fuel mh w : ℕ),
      (∀ j : ℕ, j < mh → ∀ i : ℕ, i < w → avail (x0 + (i : ℤ), y0 + (j : ℤ)) = true) →
      ∀ j : ℕ, j < (heightLoop avail x0 y0 fuel mh w).1 →
        ∀ i : ℕ, i < (heightLoop avail x0 y0 fuel mh w).2 →
          avail (x0 + (i : ℤ), y0 + (j : ℤ)) = true := by
  intro fuel
  induction fuel with
  | zero => intro mh w hinv; exact hinv
  | succ n ih =>
    intro mh w hinv
    rw [heightLoop]
    split
    · next hs =>
        have hw2 : (scanRow avail (y0 + ((mh : ℤ) + 1) - 1) x0 w).2 = w :=
          scanRow_true_snd avail _ w x0 hs
        rw [hw2, min_self]
        apply ih (mh + 1) w
        intro j hj i hi
        by_cases hjm : j < mh
        · exact hinv j hjm i hi
        · have hj' : j = mh := by omega
          subst hj'
          have h5 := (scanRow_fst_true_iff avail _ w x0).mp hs i hi
          rw [show (y0 + ((j : ℤ) + 1) - 1 : ℤ) = y0 + (j : ℤ) from by ring] at h5
          exact h5
    · exact hinv

/-! ### Membership in the marked key lists -/

theorem mem_rowKeys (present : ℤ × ℤ → Bool) (y : ℤ) :
    ∀ (w : ℕ) (x : ℤ) (k : ℤ × ℤ),
      k ∈ rowKeys present y x w ↔
        present k = true ∧ k.2 = y ∧ x ≤ k.1 ∧ k.1 < x + w := by
  intro w
  induction w with
  | zero =>
    intro x k
    constructor
    · intro hm
      simp [rowKeys] at hm
    · rintro ⟨_, _, h1, h2⟩
      omega
  | succ n ih =>
    intro x k
    rw [rowKeys, List.mem_append, ih (x + 1)]
    constructor
    · rintro (hm | ⟨hp, hy, h1, h2⟩)
      · by_cases hp : present (x, y) = true
        · rw [if_pos hp] at hm
          rcases List.mem_singleton.mp hm with rfl
          exact ⟨hp, rfl, le_refl x, by omega⟩
        · rw [if_neg hp] at hm
          simp at hm
      · exact ⟨hp, hy, by omega, by omega⟩
    · rintro ⟨hp, hy, h1, h2⟩
      by_cases hx : k.1 = x
      · left
        have hk : k = (x, y) := by
          rw [Prod.ext_iff]
          exact ⟨hx, hy⟩
        rw [hk] at hp
        rw [if_pos hp, hk]
        simp
      · right
        exact ⟨hp, hy, by omega, by omega⟩

theorem mem_blockKeys (present : ℤ × ℤ → Bool) (x0 : ℤ) :
    ∀ (h : ℕ) (y : ℤ) (w : ℕ) (k : ℤ × ℤ),
      k ∈ blockKeys present x0 y w h ↔
        present k = true ∧ x0 ≤ k.1 ∧ k.1 < x0 + w ∧ y ≤ k.2 ∧ k.2 < y + h := by
  intro h
  induction h with
  | zero =>
    intro y w k
    constructor
    · intro hm
      simp [blockKeys] at hm
    · rintro ⟨_, _, _, h1, h2⟩
      omega
  | succ n ih =>
    intro y w k
    rw [blockKeys, List.mem_append, mem_rowKeys, ih (y + 1)]
    constructor
    · rintro (⟨hp, hy, h1, h2⟩ | ⟨hp, h1, h2, h3, h4⟩)
      · exact ⟨hp, h1, h2, by omega, by omega⟩
      · exact ⟨hp, h1, h2, by omega, by omega⟩
    · rintro ⟨hp, h1, h2, h3, h4⟩
      by_cases hy : k.2 = y
      · left
        exact ⟨hp, hy, h1, h2⟩
      · right
        exact ⟨hp, h1, h2, by omega, by omega⟩
/-! ### Specification of the block growth and the traversal -/

/-- The grid coordinates of a point of the canvas, relative to a grid:
which cell's pixel square the point falls into. -/
def pointKey (gd : GridData) (p : ℚ × ℚ) : ℤ × ℤ :=
  (⌊(p.1 - gd.minX) / gd.moduleSize⌋, ⌊(p.2 - gd.minY) / gd.moduleSize⌋)

theorem coveredByRects_append (l1 l2 : List RectData) (p : ℚ × ℚ) :
    coveredByRects (l1 ++ l2) p ↔ coveredByRects l1 p ∨ coveredByRects l2 p := by
  simp [coveredByRects, List.mem_append, or_and_right, exists_or]

theorem availCell_isSome (cells : List ((ℤ × ℤ) × RGB)) (used : List (ℤ × ℤ))
    (k : ℤ × ℤ) (h : availCell cells used k = true) :
    (lookupCell cells k).isSome = true := by
  rw [availCell, Bool.and_eq_true] at h
  exact h.1

theorem findLargestRectangleFrom_spec (gd : GridData) (used : List (ℤ × ℤ)) (x0 y0 : ℤ)
    (hp : (lookupCell gd.cells (x0, y0)).isSome = true)
    (hu : usedContains used (x0, y0) = false) :
    ∃ (fill : RGB) (W H : ℕ), 0 < W ∧ 0 < H ∧
      findLargestRectangleFrom gd used x0 y0 =
        (some ⟨gd.minX + x0 * gd.moduleSize, gd.minY + y0 * gd.moduleSize,
               (W : ℚ) * gd.moduleSize, (H : ℚ) * gd.moduleSize, fill⟩,
         used ++ blockKeys (fun k => (lookupCell gd.cells k).isSome) x0 y0 W H) ∧
      (∀ i : ℕ, i < W → ∀ j : ℕ, j < H →
        availCell gd.cells used (x0 + (i : ℤ), y0 + (j : ℤ)) = true) := by
  obtain ⟨fill, hfill⟩ := Option.isSome_iff_exists.mp hp
  have havx : availCell gd.cells used (x0, y0) = true := by
    rw [availCell, hu, hfill]
    rfl
  have hWpos : 0 < (heightLoop (fun k => availCell gd.cells used k) x0 y0
      (gd.cells.length + 1) 0 (runRight (fun k => availCell gd.cells used k) y0 x0
        (gd.cells.length + 1))).2 := by
    rw [heightLoop_snd]
    exact runRight_pos _ y0 x0 _ havx (by omega)
  have hHpos : 0 < (heightLoop (fun k => availCell gd.cells used k) x0 y0
      (gd.cells.length + 1) 0 (runRight (fun k => availCell gd.cells used k) y0 x0
        (gd.cells.length + 1))).1 :=
    heightLoop_fst_pos _ x0 y0 _ _
      (fun i hi => runRight_avail _ y0 _ x0 i hi) (by omega)
  refine ⟨fill, _, _, hWpos, hHpos, ?_, ?_⟩
  · rw [findLargestRectangleFrom.eq_def, hfill]
    dsimp only
    rw [if_neg (by rw [hu]; exact Bool.false_ne_true)]
    rw [if_pos ⟨hHpos, hWpos⟩]
  · intro i hi j hj
    exact heightLoop_span_avail _ x0 y0 _ 0 _ (by intro j' hj'; omega) j hj i hi

theorem findLargestRectangleFrom_fill (gd : GridData) (used : List (ℤ × ℤ))
    (x0 y0 : ℤ) (b : RectData) (used' : List (ℤ × ℤ))
    (h : findLargestRectangleFrom gd used x0 y0 = (some b, used')) :
    ∃ k v, lookupCell gd.cells k = some v ∧ b.fill = v := by
  rw [findLargestRectangleFrom.eq_def] at h
  cases hl : lookupCell gd.cells (x0, y0) with
  | none =>
    rw [hl] at h
    simp at h
  | some fill =>
    refine ⟨(x0, y0), fill, hl, ?_⟩
    rw [hl] at h
    dsimp only at h
    by_cases hu : usedContains used (x0, y0) = true
    · rw [if_pos hu] at h
      simp at h
    · rw [if_neg hu] at h
      split at h
      · have hb := (Prod.ext_iff.mp h).1
        have hb2 := Option.some.inj hb
        rw [← hb2]
      · simp at h

theorem processPositions_spec (gd : GridData) (hm : 0 < gd.moduleSize) :
    ∀ (todo used : List (ℤ × ℤ)) (blocks : List RectData),
      (∀ k ∈ used, (lookupCell gd.cells k).isSome = true) →
      (∀ p : ℚ × ℚ, coveredByRects blocks p ↔ pointKey gd p ∈ used) →
      (∀ b ∈ blocks, ∃ k v, lookupCell gd.cells k = some v ∧ b.fill = v) →
      (∀ k ∈ used, k ∈ (processPositions gd todo used blocks).2) ∧
      (∀ k ∈ todo, (lookupCell gd.cells k).isSome = true →
        k ∈ (processPositions gd todo used blocks).2) ∧
      (∀ k ∈ (processPositions gd todo used blocks).2,
        (lookupCell gd.cells k).isSome = true) ∧
      (∀ p : ℚ × ℚ, coveredByRects (processPositions gd todo used blocks).1 p ↔
        pointKey gd p ∈ (processPositions gd todo used blocks).2) ∧
      (∀ b ∈ (processPositions gd todo used blocks).1,
        ∃ k v, lookupCell gd.cells k = some v ∧ b.fill = v) := by
  intro todo
  induction todo with
  | nil =>
    intro used blocks hused hcov hfills
    rw [processPositions]
    exact ⟨fun k hk => hk, fun k hk => absurd hk (List.not_mem_nil k), hused, hcov, hfills⟩
  | cons k rest ih =>
    intro used blocks hused hcov hfills
    rw [processPositions]
    by_cases hu : usedContains used k = true
    · rw [if_pos hu]
      obtain ⟨mono, htodo, hpres, hcov', hfills'⟩ := ih used blocks hused hcov hfills
      refine ⟨mono, ?_, hpres, hcov', hfills'⟩
      intro k' hk' hsome
      rcases List.mem_cons.mp hk' with rfl | hk'
      · exact mono k' ((usedContains_iff used k').mp hu)
      · exact htodo k' hk' hsome
    · rw [if_neg hu]
      have huF : usedContains used (k.1, k.2) = false := (Bool.not_eq_true _).mp hu
      by_cases hp : (lookupCell gd.cells (k.1, k.2)).isSome = true
      · obtain ⟨fill, W, H, hWpos, hHpos, heq, hspan⟩ :=
          findLargestRectangleFrom_spec gd used k.1 k.2 hp huF
        rw [heq]
        dsimp only [Option.toList_some]
        have hblockinterval : ∀ k' : ℤ × ℤ,
            (k.1 ≤ k'.1 ∧ k'.1 < k.1 + W ∧ k.2 ≤ k'.2 ∧ k'.2 < k.2 + H) →
            (lookupCell gd.cells k').isSome = true := by
          intro k' ⟨h1, h2, h3, h4⟩
          have hi : (k'.1 - k.1).toNat < W := by omega
          have hj : (k'.2 - k.2).toNat < H := by omega
          have := hspan _ hi _ hj
          have hk' : (k.1 + ((k'.1 - k.1).toNat : ℤ), k.2 + ((k'.2 - k.2).toNat : ℤ)) = k' := by
            rw [Prod.ext_iff]
            constructor <;> dsimp only <;> omega
          rw [hk'] at this
          exact availCell_isSome _ _ _ this
        have hused2 : ∀ k' ∈ used ++ blockKeys (fun k => (lookupCell gd.cells k).isSome)
            k.1 k.2 W H, (lookupCell gd.cells k').isSome = true := by
          intro k' hk'
          rcases List.mem_append.mp hk' with hk' | hk'
          · exact hused k' hk'
          · exact ((mem_blockKeys _ k.1 H k.2 W k').mp hk').1
        have hcov2 : ∀ p : ℚ × ℚ,
            coveredByRects (blocks ++ [⟨gd.minX + k.1 * gd.moduleSize,
              gd.minY + k.2 * gd.moduleSize, (W : ℚ) * gd.moduleSize,
              (H : ℚ) * gd.moduleSize, fill⟩]) p ↔
            pointKey gd p ∈ used ++ blockKeys (fun k => (lookupCell gd.cells k).isSome)
              k.1 k.2 W H := by
          intro p
          rw [coveredByRects_append, List.mem_append]
          apply or_congr (hcov p)
          rw [mem_blockKeys]
          unfold coveredByRects
          constructor
          · rintro ⟨r, hr, hin⟩
            rcases List.mem_singleton.mp hr with rfl
            have hin2 := (inRect_block_iff gd.moduleSize hm gd.minX gd.minY
              k.1 k.2 W H p).mp hin
            refine ⟨?_, hin2.1, hin2.2.1, hin2.2.2.1, hin2.2.2.2⟩
            exact hblockinterval _ ⟨hin2.1, hin2.2.1, hin2.2.2.1, hin2.2.2.2⟩
          · rintro ⟨hpres2, h1, h2, h3, h4⟩
            refine ⟨_, List.mem_singleton_self _, ?_⟩
            exact (inRect_block_iff gd.moduleSize hm gd.minX gd.minY
              k.1 k.2 W H p).mpr ⟨h1, h2, h3, h4⟩
        have hfills2 : ∀ b ∈ blocks ++ [⟨gd.minX + k.1 * gd.moduleSize,
            gd.minY + k.2 * gd.moduleSize, (W : ℚ) * gd.moduleSize,
            (H : ℚ) * gd.moduleSize, fill⟩],
            ∃ k' v, lookupCell gd.cells k' = some v ∧ b.fill = v := by
          intro b hb
          rcases List.mem_append.mp hb with hb | hb
          · exact hfills b hb
          · rcases List.mem_singleton.mp hb with rfl
            exact findLargestRectangleFrom_fill gd used k.1 k.2 _ _ heq
        obtain ⟨mono, htodo, hpres3, hcov3, hfills3⟩ :=
          ih _ _ hused2 hcov2 hfills2
        refine ⟨?_, ?_, hpres3, hcov3, hfills3⟩
        · intro k' hk'
          exact mono k' (List.mem_append.mpr (Or.inl hk'))
        · intro k' hk' hsome
          rcases List.mem_cons.mp hk' with rfl | hk'
          · apply mono
            apply List.mem_append.mpr
            right
            rw [mem_blockKeys]
            exact ⟨hsome, by omega, by omega, by omega, by omega⟩
          · exact htodo k' hk' hsome
      · have heqn : findLargestRectangleFrom gd used k.1 k.2 = (none, used) := by
          rw [findLargestRectangleFrom.eq_def]
          cases hl : lookupCell gd.cells (k.1, k.2) with
          | none => rfl
          | some fill => exact absurd (by rw [hl]; rfl) hp
        rw [heqn]
        dsimp only [Option.toList_none]
        rw [List.append_nil]
        obtain ⟨mono, htodo, hpres, hcov', hfills'⟩ := ih used blocks hused hcov hfills
        refine ⟨mono, ?_, hpres, hcov', hfills'⟩
        intro k' hk' hsome
        rcases List.mem_cons.mp hk' with rfl | hk'
        · exact absurd hsome hp
        · exact htodo k' hk' hsome
/-! ### Minimum-fold lemmas for the grid bounds -/

theorem foldl_min_le_seed {α : Type} [LinearOrder α] :
    ∀ (l : List α) (a : α), l.foldl min a ≤ a := by
  intro l
  induction l with
  | nil => exact fun a => le_refl a
  | cons b rest ih =>
    intro a
    rw [List.foldl_cons]
    exact le_trans (ih (min a b)) (min_le_left a b)

theorem foldl_min_le_mem {α : Type} [LinearOrder α] :
    ∀ (l : List α) (a x : α), x ∈ l → l.foldl min a ≤ x := by
  intro l
  induction l with
  | nil =>
    intro a x hx
    simp at hx
  | cons b rest ih =>
    intro a x hx
    rw [List.foldl_cons]
    rcases List.mem_cons.mp hx with rfl | hx
    · exact le_trans (foldl_min_le_seed rest (min a x)) (min_le_right a x)
    · exact ih (min a b) x hx

theorem foldl_min_mem {α : Type} [LinearOrder α] :
    ∀ (l : List α) (a : α), l.foldl min a ∈ a :: l := by
  intro l
  induction l with
  | nil =>
    intro a
    simp
  | cons b rest ih =>
    intro a
    rw [List.foldl_cons]
    rcases List.mem_cons.mp (ih (min a b)) with h | h
    · rcases le_total a b with hab | hab
      · rw [h, min_eq_left hab]
        exact List.mem_cons_self _ _
      · rw [h, min_eq_right hab]
        exact List.mem_cons_of_mem _ (List.mem_cons_self _ _)
    · exact List.mem_cons_of_mem _ (List.mem_cons_of_mem _ h)

/-! ### The grid built from a generated module lattice -/

theorem rectKey_module (m : ℚ) (hm : 0 < m) (aMin bMin a b : ℕ) (fg : RGB) :
    rectKey m ((aMin : ℚ) * m) ((bMin : ℚ) * m)
      ⟨(a : ℚ) * m, (b : ℚ) * m, m, m, fg⟩ =
      ((a : ℤ) - (aMin : ℤ), (b : ℤ) - (bMin : ℤ)) := by
  unfold rectKey
  dsimp only
  rw [show ((a : ℚ) * m - (aMin : ℚ) * m) = ((((a : ℤ) - (aMin : ℤ)) : ℤ) : ℚ) * m from by
    push_cast
    ring]
  rw [show ((b : ℚ) * m - (bMin : ℚ) * m) = ((((b : ℤ) - (bMin : ℤ)) : ℤ) : ℚ) * m from by
    push_cast
    ring]
  rw [mul_div_cancel_right₀ _ hm.ne', mul_div_cancel_right₀ _ hm.ne']
  rw [round_intCast, round_intCast]

theorem createGrid_moduleRects (M : BitMatrix) (size : ℚ) (fg : RGB)
    (hm : 0 < size / (M.width : ℚ)) (r0 : RectData) (rs : List RectData)
    (hrects : moduleRects M size fg = r0 :: rs) :
    ∃ aMin bMin : ℕ,
      (createGridFromRectangles (moduleRects M size fg)).moduleSize =
        size / (M.width : ℚ) ∧
      (createGridFromRectangles (moduleRects M size fg)).minX =
        ((aMin : ℕ) : ℚ) * (size / (M.width : ℚ)) ∧
      (createGridFromRectangles (moduleRects M size fg)).minY =
        ((bMin : ℕ) : ℚ) * (size / (M.width : ℚ)) ∧
      ∀ k : ℤ × ℤ,
        ((lookupCell (createGridFromRectangles (moduleRects M size fg)).cells k).isSome
            = true ↔
          ∃ c ∈ darkCells M, k = ((c.1 : ℤ) - (aMin : ℤ), (c.2 : ℤ) - (bMin : ℤ))) := by
  have hr0 : r0 ∈ moduleRects M size fg := by
    rw [hrects]
    exact List.mem_cons_self r0 rs
  obtain ⟨c0, hc0, hr0eq⟩ := (mem_moduleRects M size fg r0).mp hr0
  -- the grid record, concretely
  have hgrid : createGridFromRectangles (moduleRects M size fg) =
      ⟨(moduleRects M size fg).foldl
        (fun acc r => insertCell acc
          (rectKey (min r0.width r0.height)
            (((moduleRects M size fg).map RectData.x).foldl min r0.x)
            (((moduleRects M size fg).map RectData.y).foldl min r0.y) r) r.fill) [],
       min r0.width r0.height,
       ((moduleRects M size fg).map RectData.x).foldl min r0.x,
       ((moduleRects M size fg).map RectData.y).foldl min r0.y⟩ := by
    conv_lhs => rw [hrects]
    rw [createGridFromRectangles]
    rw [← hrects]
  have hms : min r0.width r0.height = size / (M.width : ℚ) := by
    rw [hr0eq]
    exact min_self _
  -- the x minimum is a lattice multiple
  have hminXmem := foldl_min_mem ((moduleRects M size fg).map RectData.x) r0.x
  have hminXlattice : ∃ aMin : ℕ,
      ((moduleRects M size fg).map RectData.x).foldl min r0.x =
        (aMin : ℚ) * (size / (M.width : ℚ)) := by
    rcases List.mem_cons.mp hminXmem with h | h
    · exact ⟨c0.1, by rw [h, hr0eq]⟩
    · obtain ⟨r, hr, hrx⟩ := List.mem_map.mp h
      obtain ⟨c, _, hceq⟩ := (mem_moduleRects M size fg r).mp hr
      exact ⟨c.1, by rw [← hrx, hceq]⟩
  have hminYmem := foldl_min_mem ((moduleRects M size fg).map RectData.y) r0.y
  have hminYlattice : ∃ bMin : ℕ,
      ((moduleRects M size fg).map RectData.y).foldl min r0.y =
        (bMin : ℚ) * (size / (M.width : ℚ)) := by
    rcases List.mem_cons.mp hminYmem with h | h
    · exact ⟨c0.2, by rw [h, hr0eq]⟩
    · obtain ⟨r, hr, hry⟩ := List.mem_map.mp h
      obtain ⟨c, _, hceq⟩ := (mem_moduleRects M size fg r).mp hr
      exact ⟨c.2, by rw [← hry, hceq]⟩
  obtain ⟨aMin, haMin⟩ := hminXlattice
  obtain ⟨bMin, hbMin⟩ := hminYlattice
  refine ⟨aMin, bMin, ?_, ?_, ?_, ?_⟩
  · rw [hgrid, hms]
  · rw [hgrid, haMin]
  · rw [hgrid, hbMin]
  · intro k
    rw [hgrid]
    dsimp only
    rw [grid_foldl_keys]
    constructor
    · rintro (h | ⟨r, hr, hk⟩)
      · simp [lookupCell] at h
      · obtain ⟨c, hc, hceq⟩ := (mem_moduleRects M size fg r).mp hr
        refine ⟨c, hc, ?_⟩
        rw [← hk, hceq, hms, haMin, hbMin]
        rw [rectKey_module _ hm]
    · rintro ⟨c, hc, rfl⟩
      right
      refine ⟨⟨(c.1 : ℚ) * (size / (M.width : ℚ)), (c.2 : ℚ) * (size / (M.width : ℚ)),
        size / (M.width : ℚ), size / (M.width : ℚ), fg⟩,
        (mem_moduleRects M size fg _).mpr ⟨c, hc, rfl⟩, ?_⟩
      rw [hms, haMin, hbMin]
      rw [rectKey_module _ hm]

/-! ### Coverage of the traversal output -/

theorem processPositions_coverage (gd : GridData) (hm : 0 < gd.moduleSize) :
    (∀ p : ℚ × ℚ,
      coveredByRects (processPositions gd (sortPositions (gd.cells.map Prod.fst)) [] []).1 p
        ↔ (lookupCell gd.cells (pointKey gd p)).isSome = true) ∧
    (∀ b ∈ (processPositions gd (sortPositions (gd.cells.map Prod.fst)) [] []).1,
      ∃ k v, lookupCell gd.cells k = some v ∧ b.fill = v) := by
  obtain ⟨mono, htodo, hpres, hcov, hfills⟩ := processPositions_spec gd hm
    (sortPositions (gd.cells.map Prod.fst)) [] []
    (by intro k hk; simp at hk)
    (by intro p; simp [coveredByRects])
    (by intro b hb; simp at hb)
  refine ⟨?_, hfills⟩
  intro p
  rw [hcov p]
  constructor
  · intro hk
    exact hpres _ hk
  · intro hsome
    apply htodo _ _ hsome
    have hmem := (lookupCell_isSome_iff _ _).mp hsome
    rw [sortPositions]
    exact (List.mergeSort_perm (gd.cells.map Prod.fst) _).mem_iff.mpr hmem

theorem mergeIntoBlocks_module_coverage (M : BitMatrix) (size : ℚ) (fg : RGB)
    (hsize : 0 < size) (hw : 0 < M.width) :
    ∀ p : ℚ × ℚ, coveredByRects (mergeIntoBlocks (moduleRects M size fg)) p ↔
      coveredByRects (moduleRects M size fg) p := by
  intro p
  have hm : 0 < size / (M.width : ℚ) := by
    apply div_pos hsize
    exact_mod_cast hw
  rcases hrects : moduleRects M size fg with _ | ⟨r0, rs⟩
  · simp [show mergeIntoBlocks ([] : List RectData) = [] from rfl, coveredByRects]
  · rw [← hrects]
    obtain ⟨aMin, bMin, hms, hminX, hminY, hpres⟩ :=
      createGrid_moduleRects M size fg hm r0 rs hrects
    have hm' : 0 < (createGridFromRectangles (moduleRects M size fg)).moduleSize := by
      rw [hms]
      exact hm
    obtain ⟨hcov, _⟩ := processPositions_coverage
      (createGridFromRectangles (moduleRects M size fg)) hm'
    have hfb : mergeIntoBlocks (moduleRects M size fg) =
        findLargestBlocks (createGridFromRectangles (moduleRects M size fg))
          (moduleRects M size fg) := by
      rw [hrects]
      rfl
    have hlat : (lookupCell (createGridFromRectangles (moduleRects M size fg)).cells
        (pointKey (createGridFromRectangles (moduleRects M size fg)) p)).isSome = true ↔
        coveredByRects (moduleRects M size fg) p := by
      rw [hpres]
      rw [coveredBy_moduleRects_iff M size fg hm]
      have hpk : pointKey (createGridFromRectangles (moduleRects M size fg)) p =
          (⌊p.1 / (size / (M.width : ℚ))⌋ - (aMin : ℤ),
           ⌊p.2 / (size / (M.width : ℚ))⌋ - (bMin : ℤ)) := by
        rw [pointKey, hms, hminX, hminY]
        rw [show (p.1 - ((aMin : ℕ) : ℚ) * (size / (M.width : ℚ))) / (size / (M.width : ℚ))
            = p.1 / (size / (M.width : ℚ)) - (((aMin : ℤ) : ℚ)) from by
          rw [sub_div, mul_div_cancel_right₀ _ hm.ne']
          norm_num]
        rw [show (p.2 - ((bMin : ℕ) : ℚ) * (size / (M.width : ℚ))) / (size / (M.width : ℚ))
            = p.2 / (size / (M.width : ℚ)) - (((bMin : ℤ) : ℚ)) from by
          rw [sub_div, mul_div_cancel_right₀ _ hm.ne']
          norm_num]
        rw [Int.floor_sub_int, Int.floor_sub_int]
      rw [hpk]
      apply exists_congr
      intro c
      apply and_congr Iff.rfl
      rw [Prod.ext_iff]
      dsimp only
      omega
    rw [hfb, findLargestBlocks]
    split
    · rw [hcov p, hlat]
    · exact Iff.rfl
/-! ### Even-odd coverage of the merged path -/

theorem filterMap_eq_map_of_forall {α β : Type} (f : α → Option β) (g : α → β) :
    ∀ l : List α, (∀ x ∈ l, f x = some (g x)) → l.filterMap f = l.map g := by
  intro l
  induction l with
  | nil => intro _; rfl
  | cons a as ih =>
    intro h
    rw [List.filterMap_cons, h a (List.mem_cons_self a as)]
    dsimp only
    rw [List.map_cons, ih (fun x hx => h x (List.mem_cons_of_mem a hx))]

theorem moduleRect_passes (M : BitMatrix) (size : ℚ) (fg : RGB)
    (hsize : 0 < size) (hw : 0 < M.width) (hsq : M.height = M.width) :
    ∀ r ∈ moduleRects M size fg,
      0 < r.width ∧ 0 < r.height ∧ 0 ≤ r.x ∧ 0 ≤ r.y ∧
      r.x + r.width ≤ size ∧ r.y + r.height ≤ size ∧ r.fill = fg := by
  intro r hr
  obtain ⟨c, hc, rfl⟩ := (mem_moduleRects M size fg r).mp hr
  obtain ⟨hcw, hch, _⟩ := (mem_darkCells M c).mp hc
  have hm : 0 < size / (M.width : ℚ) := by
    apply div_pos hsize
    exact_mod_cast hw
  have hwQ : ((M.width : ℕ) : ℚ) ≠ 0 := by
    exact_mod_cast hw.ne'
  refine ⟨hm, hm, ?_, ?_, ?_, ?_, rfl⟩
  · exact mul_nonneg (Nat.cast_nonneg c.1) hm.le
  · exact mul_nonneg (Nat.cast_nonneg c.2) hm.le
  · have h1 : ((c.1 : ℚ) + 1) ≤ (M.width : ℚ) := by
      exact_mod_cast hcw
    calc (c.1 : ℚ) * (size / (M.width : ℚ)) + size / (M.width : ℚ)
        = ((c.1 : ℚ) + 1) * (size / (M.width : ℚ)) := by ring
      _ ≤ (M.width : ℚ) * (size / (M.width : ℚ)) :=
          mul_le_mul_of_nonneg_right h1 hm.le
      _ = size := by field_simp
  · have h1 : ((c.2 : ℚ) + 1) ≤ (M.width : ℚ) := by
      rw [hsq] at hch
      exact_mod_cast hch
    calc (c.2 : ℚ) * (size / (M.width : ℚ)) + size / (M.width : ℚ)
        = ((c.2 : ℚ) + 1) * (size / (M.width : ℚ)) := by ring
      _ ≤ (M.width : ℚ) * (size / (M.width : ℚ)) :=
          mul_le_mul_of_nonneg_right h1 hm.le
      _ = size := by field_simp

theorem countP_le_one {α : Type} (p : α → Bool) :
    ∀ l : List α, l.Nodup → (∀ a ∈ l, ∀ b ∈ l, p a = true → p b = true → a = b) →
      l.countP p ≤ 1 := by
  intro l
  induction l with
  | nil =>
    intro _ _
    simp
  | cons a as ih =>
    intro hnd hinj
    rw [List.countP_cons]
    by_cases hpa : p a = true
    · have hz : as.countP p = 0 := by
        rw [List.countP_eq_zero]
        intro b hb hpb
        have hab := hinj a (List.mem_cons_self a as) b (List.mem_cons_of_mem a hb) hpa hpb
        rw [hab] at hnd
        exact (List.nodup_cons.mp hnd).1 hb
      rw [hz, hpa]
      simp
    · rw [if_neg hpa]
      have hrec := ih (List.nodup_cons.mp hnd).2
        (fun x hx y hy => hinj x (List.mem_cons_of_mem a hx) y (List.mem_cons_of_mem a hy))
      omega

theorem path_module_coverage (M : BitMatrix) (size : ℚ) (fg : RGB)
    (hsize : 0 < size) (hw : 0 < M.width) (hsq : M.height = M.width)
    (hfg : isBlackColor fg = true) :
    ∀ p : ℚ × ℚ,
      evenOddCovered ((convertRectsToPath (moduleRects M size fg) size size).getD []) p ↔
        coveredByRects (moduleRects M size fg) p := by
  intro p
  have hm : 0 < size / (M.width : ℚ) := by
    apply div_pos hsize
    exact_mod_cast hw
  have hpass : ∀ r ∈ moduleRects M size fg, (fun r : RectData =>
      if isBlackColor r.fill = true ∧ 0 < r.width ∧ 0 < r.height ∧
          0 ≤ r.x ∧ 0 ≤ r.y ∧ r.x + r.width ≤ size ∧ r.y + r.height ≤ size then
        some (toGeom r) else none) r = some (toGeom r) := by
    intro r hr
    obtain ⟨h1, h2, h3, h4, h5, h6, h7⟩ := moduleRect_passes M size fg hsize hw hsq r hr
    exact if_pos ⟨by rw [h7]; exact hfg, h1, h2, h3, h4, h5, h6⟩
  have hfmap := filterMap_eq_map_of_forall _ toGeom (moduleRects M size fg) hpass
  rcases hrects : moduleRects M size fg with _ | ⟨r0, rs⟩
  · simp [convertRectsToPath, evenOddCovered, coveredByRects, Nat.odd_iff]
  · rw [← hrects]
    have hconv : convertRectsToPath (moduleRects M size fg) size size =
        some (((moduleRects M size fg).map toGeom).mergeSort
          (fun a b => decide (a.y < b.y ∨ (a.y = b.y ∧ a.x ≤ b.x)))) := by
      rw [convertRectsToPath.eq_def]
      dsimp only
      rw [hfmap]
      rw [if_neg (by rw [hrects]; simp)]
    rw [hconv]
    rw [Option.getD_some]
    unfold evenOddCovered
    rw [(List.mergeSort_perm ((moduleRects M size fg).map toGeom) _).countP_eq]
    rw [List.countP_map]
    rw [coveredBy_moduleRects_iff M size fg hm]
    rw [show moduleRects M size fg = (darkCells M).map (fun c =>
      (⟨(c.1 : ℚ) * (size / (M.width : ℚ)), (c.2 : ℚ) * (size / (M.width : ℚ)),
        size / (M.width : ℚ), size / (M.width : ℚ), fg⟩ : RectData)) from rfl]
    rw [List.countP_map]
    have hcgr : (darkCells M).countP (((fun g => decide (inRect g p)) ∘ toGeom) ∘ fun c =>
        (⟨(c.1 : ℚ) * (size / (M.width : ℚ)), (c.2 : ℚ) * (size / (M.width : ℚ)),
          size / (M.width : ℚ), size / (M.width : ℚ), fg⟩ : RectData)) =
        (darkCells M).countP (fun c =>
          decide (⌊p.1 / (size / (M.width : ℚ))⌋ = (c.1 : ℤ) ∧
            ⌊p.2 / (size / (M.width : ℚ))⌋ = (c.2 : ℤ))) := by
      apply List.countP_congr
      intro c _
      simp only [Function.comp, decide_eq_true_eq, toGeom]
      exact inRect_module_iff (size / (M.width : ℚ)) hm c.1 c.2 p
    rw [hcgr]
    have hinj : ∀ a ∈ darkCells M, ∀ b ∈ darkCells M,
        (fun c => decide (⌊p.1 / (size / (M.width : ℚ))⌋ = (c.1 : ℤ) ∧
          ⌊p.2 / (size / (M.width : ℚ))⌋ = (c.2 : ℤ))) a = true →
        (fun c => decide (⌊p.1 / (size / (M.width : ℚ))⌋ = (c.1 : ℤ) ∧
          ⌊p.2 / (size / (M.width : ℚ))⌋ = (c.2 : ℤ))) b = true → a = b := by
      intro a _ b _ ha hb
      rw [decide_eq_true_eq] at ha hb
      obtain ⟨ha1, ha2⟩ := ha
      obtain ⟨hb1, hb2⟩ := hb
      rw [Prod.ext_iff]
      constructor
      · exact_mod_cast ha1.symm.trans hb1
      · exact_mod_cast ha2.symm.trans hb2
    have hle := countP_le_one _ (darkCells M) (darkCells_nodup M) hinj
    constructor
    · intro hodd
      obtain ⟨t, ht⟩ := hodd
      have hpos : 0 < (darkCells M).countP (fun c =>
          decide (⌊p.1 / (size / (M.width : ℚ))⌋ = (c.1 : ℤ) ∧
            ⌊p.2 / (size / (M.width : ℚ))⌋ = (c.2 : ℤ))) := by omega
      obtain ⟨c, hc, hqc⟩ := List.countP_pos_iff.mp hpos
      rw [decide_eq_true_eq] at hqc
      exact ⟨c, hc, hqc⟩
    · rintro ⟨c, hc, h1, h2⟩
      have hpos : 0 < (darkCells M).countP (fun c =>
          decide (⌊p.1 / (size / (M.width : ℚ))⌋ = (c.1 : ℤ) ∧
            ⌊p.2 / (size / (M.width : ℚ))⌋ = (c.2 : ℤ))) :=
        List.countP_pos_iff.mpr ⟨c, hc, by rw [decide_eq_true_eq]; exact ⟨h1, h2⟩⟩
      have heq1 : (darkCells M).countP (fun c =>
          decide (⌊p.1 / (size / (M.width : ℚ))⌋ = (c.1 : ℤ) ∧
            ⌊p.2 / (size / (M.width : ℚ))⌋ = (c.2 : ℤ))) = 1 :=
        le_antisymm hle hpos
      rw [heq1]
      exact odd_one

/-! ### Claim C1 -/

/-- Claim C1: for the dark rectangle set extracted from a generated SVG
(square matrix, positive size, dark foreground), rendering the block-merge
output and rendering the even-odd filled path of the path-merge output
each mark exactly the same canvas points dark as rendering the original
unmerged rectangles, point for point. -/
theorem C1_coverage_invariant (M : BitMatrix) (size : ℚ) (fg : RGB)
    (hsize : 0 < size) (hw : 0 < M.width) (hsq : M.height = M.width)
    (hfg : isBlackColor fg = true) :
    ∀ p : ℚ × ℚ,
      (coveredByRects (mergeIntoBlocks (moduleRects M size fg)) p ↔
        coveredByRects (moduleRects M size fg) p) ∧
      (evenOddCovered ((convertRectsToPath (moduleRects M size fg) size size).getD []) p ↔
        coveredByRects (moduleRects M size fg) p) :=
  fun p => ⟨mergeIntoBlocks_module_coverage M size fg hsize hw p,
    path_module_coverage M size fg hsize hw hsq hfg p⟩

/-- Witness for C1_coverage_invariant at the 1-by-1 dark matrix and the
point (5, 5) inside its single module. -/
theorem C1_coverage_invariant_witness :
    (coveredByRects (mergeIntoBlocks (moduleRects oneDarkMatrix 10 rgbBlack)) (5, 5) ↔
      coveredByRects (moduleRects oneDarkMatrix 10 rgbBlack) (5, 5)) ∧
    (evenOddCovered ((convertRectsToPath (moduleRects oneDarkMatrix 10 rgbBlack)
        10 10).getD []) (5, 5) ↔
      coveredByRects (moduleRects oneDarkMatrix 10 rgbBlack) (5, 5)) :=
  C1_coverage_invariant oneDarkMatrix 10 rgbBlack (by norm_num) (by decide) rfl (by decide)
    (5, 5)
/-! ### Background-rect counting lemmas -/

theorem black_not_background (c : RGB) (h : isBlackColor c = true) :
    isBackgroundColor c = false := by
  simp only [isBlackColor, Bool.and_eq_true, decide_eq_true_eq] at h
  simp only [isBackgroundColor, Bool.and_eq_false_iff, decide_eq_false_iff_not]
  omega

theorem background_not_black (c : RGB) (h : isBackgroundColor c = true) :
    isBlackColor c = false := by
  simp only [isBackgroundColor, Bool.and_eq_true, decide_eq_true_eq] at h
  simp only [isBlackColor, Bool.and_eq_false_iff, decide_eq_false_iff_not]
  omega

theorem filterMap_rectElems_map (l : List RectData) :
    (l.map SVGElem.rect).filterMap (fun e => match e with
      | SVGElem.rect r => some r
      | _ => none) = l := by
  induction l with
  | nil => rfl
  | cons a as ih =>
    rw [List.map_cons, List.filterMap_cons]
    dsimp only
    rw [ih]

theorem rectElems_createSVGString_none (M : BitMatrix) (size : ℚ) (fg : RGB) :
    rectElems (createSVGString M size fg none) = moduleRects M size fg := by
  rw [rectElems, createSVGString]
  dsimp only
  rw [List.nil_append]
  exact filterMap_rectElems_map _

theorem rectElems_createSVGString_some (M : BitMatrix) (size : ℚ) (fg bg : RGB) :
    rectElems (createSVGString M size fg (some bg)) =
      (⟨0, 0, size, size, bg⟩ : RectData) :: moduleRects M size fg := by
  rw [rectElems, createSVGString]
  dsimp only
  rw [List.singleton_append, List.filterMap_cons]
  dsimp only
  rw [filterMap_rectElems_map]

theorem countP_moduleRectElems (M : BitMatrix) (size : ℚ) (fg : RGB)
    (hfg : isBlackColor fg = true) (dw dh : ℚ) :
    ((moduleRects M size fg).map SVGElem.rect).countP (isFullCanvasBgRect dw dh) = 0 := by
  rw [List.countP_eq_zero]
  intro e he
  obtain ⟨r, hr, rfl⟩ := List.mem_map.mp he
  obtain ⟨c, hc, rfl⟩ := (mem_moduleRects _ _ _ _).mp hr
  rw [isFullCanvasBgRect]
  rw [black_not_background fg hfg]
  simp

theorem countP_nonbg_rects (merged : List RectData)
    (hmerged : ∀ r ∈ merged, isBackgroundColor r.fill = false) (dw dh : ℚ) :
    (merged.map SVGElem.rect).countP (isFullCanvasBgRect dw dh) = 0 := by
  rw [List.countP_eq_zero]
  intro e he
  obtain ⟨r, hr, rfl⟩ := List.mem_map.mp he
  rw [isFullCanvasBgRect]
  rw [hmerged r hr]
  simp

theorem bgRectCount_createOptimizedSVG (doc : SVGDoc) (pd : List RectGeom) :
    bgRectCount (createOptimizedSVG doc pd) = 1 := by
  rw [createOptimizedSVG]
  cases hf : doc.elements.find? isWhiteRect with
  | none =>
    simp [bgRectCount, isFullCanvasBgRect, isBackgroundColor, rgbWhite]
  | some e =>
    have hwte := List.find?_some hf
    cases e with
    | rect r =>
      have hfw : r.fill = rgbWhite := by
        rw [isWhiteRect] at hwte
        exact decide_eq_true_eq.mp hwte
      simp [bgRectCount, isFullCanvasBgRect, hfw, isBackgroundColor, rgbWhite]
    | path subpaths fill =>
      simp [isWhiteRect] at hwte
    | image mime w h =>
      simp [isWhiteRect] at hwte

theorem bgRectCount_createOptimizedRowSVG (doc : SVGDoc) (merged : List RectData)
    (bgr : Option RectData)
    (hbgr : ∀ r, bgr = some r →
      isFullCanvasBgRect doc.width doc.height (SVGElem.rect r) = true)
    (hmerged : ∀ r ∈ merged, isBackgroundColor r.fill = false) :
    bgRectCount (createOptimizedRowSVG doc merged bgr) = 1 := by
  cases bgr with
  | none =>
    rw [createOptimizedRowSVG.eq_def, bgRectCount]
    dsimp only
    rw [List.countP_cons]
    rw [countP_nonbg_rects merged hmerged]
    simp [isFullCanvasBgRect, isBackgroundColor, rgbWhite]
  | some r =>
    rw [createOptimizedRowSVG.eq_def, bgRectCount]
    dsimp only
    rw [List.countP_cons]
    rw [countP_nonbg_rects merged hmerged]
    rw [hbgr r rfl]
    simp

theorem moduleRects_isRectValid (M : BitMatrix) (size : ℚ) (fg : RGB)
    (hsize : 0 < size) (hw : 0 < M.width) (hsq : M.height = M.width) :
    ∀ r ∈ moduleRects M size fg, isRectValid r size size = true := by
  intro r hr
  obtain ⟨h1, h2, h3, h4, h5, h6, _⟩ := moduleRect_passes M size fg hsize hw hsq r hr
  rw [isRectValid]
  simp only [Bool.and_eq_true, decide_eq_true_eq]
  exact ⟨⟨⟨⟨⟨h1, h2⟩, h3⟩, h4⟩, h5⟩, h6⟩

theorem extractBlackRects_modules (M : BitMatrix) (size : ℚ) (fg : RGB)
    (hsize : 0 < size) (hw : 0 < M.width) (hsq : M.height = M.width)
    (hfg : isBlackColor fg = true) :
    extractBlackRects (moduleRects M size fg) size size = moduleRects M size fg := by
  rw [extractBlackRects, List.filter_eq_self]
  intro r hr
  obtain ⟨_, _, _, _, _, _, h7⟩ := moduleRect_passes M size fg hsize hw hsq r hr
  rw [moduleRects_isRectValid M size fg hsize hw hsq r hr, h7, hfg]
  rfl

theorem extractBlackRects_cons_nonblack (r : RectData) (rects : List RectData)
    (w h : ℚ) (hr : isBlackColor r.fill = false) :
    extractBlackRects (r :: rects) w h = extractBlackRects rects w h := by
  rw [extractBlackRects, extractBlackRects, List.filter_cons]
  rw [hr]
  simp

theorem findBackgroundRect_modules (M : BitMatrix) (size : ℚ) (fg : RGB)
    (hfg : isBlackColor fg = true) :
    findBackgroundRect (moduleRects M size fg) size size = none := by
  rw [findBackgroundRect, List.find?_eq_none]
  intro r hr
  obtain ⟨c, hc, rfl⟩ := (mem_moduleRects _ _ _ _).mp hr
  dsimp only
  rw [hfg]
  simp

theorem findBackgroundRect_cons_bg (rects : List RectData) (size : ℚ) (bg : RGB)
    (hsize : 0 < size) (hbg : isBackgroundColor bg = true) :
    findBackgroundRect ((⟨0, 0, size, size, bg⟩ : RectData) :: rects) size size =
      some ⟨0, 0, size, size, bg⟩ := by
  rw [findBackgroundRect, List.find?_cons_of_pos]
  rw [background_not_black bg hbg, hbg]
  rw [isRectValid]
  simp only [Bool.and_eq_true, decide_eq_true_eq]
  norm_num
  exact hsize

theorem convertRectsToPath_cons_nonblack (r : RectData) (rects : List RectData)
    (w h : ℚ) (hr : isBlackColor r.fill = false) :
    convertRectsToPath (r :: rects) w h = convertRectsToPath rects w h := by
  rw [convertRectsToPath.eq_def, convertRectsToPath.eq_def]
  dsimp only
  rw [List.filterMap_cons_none]
  rw [if_neg]
  rintro ⟨h1, _⟩
  rw [hr] at h1
  exact Bool.false_ne_true h1

theorem convertRectsToPath_moduleRects (M : BitMatrix) (size : ℚ) (fg : RGB)
    (hsize : 0 < size) (hw : 0 < M.width) (hsq : M.height = M.width)
    (hfg : isBlackColor fg = true) (hne : moduleRects M size fg ≠ []) :
    convertRectsToPath (moduleRects M size fg) size size =
      some (((moduleRects M size fg).map toGeom).mergeSort
        (fun a b => decide (a.y < b.y ∨ (a.y = b.y ∧ a.x ≤ b.x)))) := by
  have hpass : ∀ r ∈ moduleRects M size fg, (fun r : RectData =>
      if isBlackColor r.fill = true ∧ 0 < r.width ∧ 0 < r.height ∧
          0 ≤ r.x ∧ 0 ≤ r.y ∧ r.x + r.width ≤ size ∧ r.y + r.height ≤ size then
        some (toGeom r) else none) r = some (toGeom r) := by
    intro r hr
    obtain ⟨h1, h2, h3, h4, h5, h6, h7⟩ := moduleRect_passes M size fg hsize hw hsq r hr
    exact if_pos ⟨by rw [h7]; exact hfg, h1, h2, h3, h4, h5, h6⟩
  have hfmap := filterMap_eq_map_of_forall _ toGeom (moduleRects M size fg) hpass
  rw [convertRectsToPath.eq_def]
  dsimp only
  rw [hfmap]
  rw [if_neg (by simp [hne])]

theorem mergeIntoBlocks_fills (r0 : RectData) (rs : List RectData)
    (hm : 0 < (createGridFromRectangles (r0 :: rs)).moduleSize) :
    ∀ b ∈ mergeIntoBlocks (r0 :: rs), ∃ r ∈ r0 :: rs, b.fill = r.fill := by
  intro b hb
  rw [show mergeIntoBlocks (r0 :: rs) =
      findLargestBlocks (createGridFromRectangles (r0 :: rs)) (r0 :: rs) from rfl,
    findLargestBlocks] at hb
  split at hb
  · obtain ⟨_, hfills⟩ := processPositions_coverage (createGridFromRectangles (r0 :: rs)) hm
    obtain ⟨k, v, hlk, hbf⟩ := hfills b hb
    have hcells : (createGridFromRectangles (r0 :: rs)).cells = (r0 :: rs).foldl
        (fun acc r => insertCell acc (rectKey (min r0.width r0.height)
          (((r0 :: rs).map RectData.x).foldl min r0.x)
          (((r0 :: rs).map RectData.y).foldl min r0.y) r) r.fill) [] := rfl
    rw [hcells] at hlk
    rcases grid_foldl_values _ (r0 :: rs) [] k v hlk with h1 | h2
    · obtain ⟨c, hc, _⟩ := h1
      simp at hc
    · obtain ⟨r, hr, hv⟩ := h2
      exact ⟨r, hr, by rw [hbf, hv]⟩
  · exact ⟨b, hb, rfl⟩
/-! ### Claim C8 -/

theorem isEmpty_false_of_ne_nil {α : Type} (l : List α) (h : l ≠ []) :
    l.isEmpty = false := by
  cases l with
  | nil => exact absurd rfl h
  | cons a as => rfl

theorem bgRectCount_basic_none (M : BitMatrix) (size : ℚ) (fg : RGB)
    (hfg : isBlackColor fg = true) :
    bgRectCount (createSVGString M size fg none) = 0 := by
  rw [bgRectCount, createSVGString]
  dsimp only
  rw [List.nil_append]
  exact countP_moduleRectElems M size fg hfg size size

theorem bgRectCount_basic_some (M : BitMatrix) (size : ℚ) (fg bg : RGB)
    (hfg : isBlackColor fg = true) (hbg : isBackgroundColor bg = true) :
    bgRectCount (createSVGString M size fg (some bg)) = 1 := by
  rw [bgRectCount, createSVGString]
  dsimp only
  rw [List.singleton_append, List.countP_cons]
  rw [countP_moduleRectElems M size fg hfg size size]
  rw [show isFullCanvasBgRect size size (SVGElem.rect ⟨0, 0, size, size, bg⟩) = true from by
    rw [isFullCanvasBgRect, hbg]
    simp]
  norm_num

theorem moduleRects_ne_nil (M : BitMatrix) (size : ℚ) (fg : RGB)
    (hdne : darkCells M ≠ []) : moduleRects M size fg ≠ [] := by
  rw [moduleRects]
  intro hmap
  exact hdne (List.map_eq_nil_iff.mp hmap)

theorem mergedModules_not_background (M : BitMatrix) (size : ℚ) (fg : RGB)
    (hsize : 0 < size) (hw : 0 < M.width) (hfg : isBlackColor fg = true) :
    ∀ r ∈ mergeIntoBlocks (moduleRects M size fg), isBackgroundColor r.fill = false := by
  intro r hrm
  have hm : 0 < size / (M.width : ℚ) := by
    apply div_pos hsize
    exact_mod_cast hw
  rcases hrects : moduleRects M size fg with _ | ⟨r0, rs⟩
  · rw [hrects] at hrm
    simp [show mergeIntoBlocks ([] : List RectData) = [] from rfl] at hrm
  · rw [hrects] at hrm
    have hr0 : r0 ∈ moduleRects M size fg := by
      rw [hrects]
      exact List.mem_cons_self r0 rs
    obtain ⟨c0, _, hr0eq⟩ := (mem_moduleRects M size fg r0).mp hr0
    have hm' : 0 < (createGridFromRectangles (r0 :: rs)).moduleSize := by
      rw [show (createGridFromRectangles (r0 :: rs)).moduleSize =
          min r0.width r0.height from rfl]
      rw [hr0eq]
      dsimp only
      rw [min_self]
      exact hm
    obtain ⟨r', hr', hfillr⟩ := mergeIntoBlocks_fills r0 rs hm' r hrm
    have hr'm : r' ∈ moduleRects M size fg := by
      rw [hrects]
      exact hr'
    obtain ⟨c, _, rfl⟩ := (mem_moduleRects M size fg r').mp hr'm
    rw [hfillr]
    dsimp only
    exact black_not_background fg hfg

theorem bgRectCount_optimized_transparent (M : BitMatrix) (size : ℚ) (fg : RGB)
    (hsize : 0 < size) (hw : 0 < M.width) (hsq : M.height = M.width)
    (hfg : isBlackColor fg = true) (hdne : darkCells M ≠ []) :
    bgRectCount (optimizeSVG (createSVGString M size fg none)) = 1 ∧
    bgRectCount (optimizeSVGRows (createSVGString M size fg none)) = 1 := by
  have hmne := moduleRects_ne_nil M size fg hdne
  constructor
  · rw [optimizeSVG]
    rw [rectElems_createSVGString_none]
    rw [if_neg (by rw [isEmpty_false_of_ne_nil _ hmne]; exact Bool.false_ne_true)]
    rw [show (createSVGString M size fg none).width = size from rfl,
      show (createSVGString M size fg none).height = size from rfl]
    rw [convertRectsToPath_moduleRects M size fg hsize hw hsq hfg hmne]
    exact bgRectCount_createOptimizedSVG _ _
  · rw [optimizeSVGRows]
    dsimp only
    rw [rectElems_createSVGString_none]
    rw [if_neg (by rw [isEmpty_false_of_ne_nil _ hmne]; exact Bool.false_ne_true)]
    rw [extractAndMergeBlocks]
    rw [show (createSVGString M size fg none).width = size from rfl,
      show (createSVGString M size fg none).height = size from rfl]
    rw [extractBlackRects_modules M size fg hsize hw hsq hfg]
    rw [if_neg (by rw [isEmpty_false_of_ne_nil _ hmne]; exact Bool.false_ne_true)]
    rw [findBackgroundRect_modules M size fg hfg]
    apply bgRectCount_createOptimizedRowSVG
    · intro r hr
      simp at hr
    · exact mergedModules_not_background M size fg hsize hw hfg

/-- Claim C8 counterexample: a transparent generation (no background
color) of a matrix with one dark module, once optimized, contains exactly
one full-canvas background fill rectangle in both the path-merge and the
block-merge output, although the claim requires the background to be
omitted entirely for every transparent output. -/
theorem C8_counterexample :
    bgRectCount (optimizeSVG (createSVGString oneDarkMatrix 10 rgbBlack none)) = 1 ∧
    bgRectCount (optimizeSVGRows (createSVGString oneDarkMatrix 10 rgbBlack none)) = 1 :=
  bgRectCount_optimized_transparent oneDarkMatrix 10 rgbBlack (by norm_num) (by decide)
    rfl (by decide) (by rw [darkCells_oneDark]; simp)

/-- Claim C8 (amended): with a transparent background the basic generated
document and the raster-embed wrapper contain no full-canvas background
fill rectangle; the path-merge and block-merge optimized documents contain
exactly one whenever the matrix has at least one dark module (a default
white background is reintroduced), and only in the blank-matrix transparent
case do they return the rect-free input unchanged with zero background
rectangles; with a non-transparent light background every one of the four
documents contains exactly one full-canvas background rectangle, emitted
before the geometry content. -/
theorem C8_background_emission (M : BitMatrix) (size : ℚ) (fg bg : RGB)
    (mime : MimeType)
    (hsize : 0 < size) (hw : 0 < M.width) (hsq : M.height = M.width)
    (hfg : isBlackColor fg = true) (hbg : isBackgroundColor bg = true) :
    bgRectCount (createSVGString M size fg none) = 0 ∧
    bgRectCount (createSVGString M size fg (some bg)) = 1 ∧
    (createSVGString M size fg (some bg)).elements.head? =
      some (SVGElem.rect ⟨0, 0, size, size, bg⟩) ∧
    bgRectCount (createSVGWrapper mime size none) = 0 ∧
    bgRectCount (createSVGWrapper mime size (some bg)) = 1 ∧
    (darkCells M ≠ [] →
      bgRectCount (optimizeSVG (createSVGString M size fg none)) = 1 ∧
      bgRectCount (optimizeSVGRows (createSVGString M size fg none)) = 1) ∧
    bgRectCount (optimizeSVG (createSVGString M size fg (some bg))) = 1 ∧
    bgRectCount (optimizeSVGRows (createSVGString M size fg (some bg))) = 1 ∧
    (darkCells M = [] →
      optimizeSVG (createSVGString M size fg none) = createSVGString M size fg none ∧
      optimizeSVGRows (createSVGString M size fg none) = createSVGString M size fg none ∧
      bgRectCount (optimizeSVG (createSVGString M size fg none)) = 0 ∧
      bgRectCount (optimizeSVGRows (createSVGString M size fg none)) = 0) := by
  refine ⟨bgRectCount_basic_none M size fg hfg, bgRectCount_basic_some M size fg bg hfg hbg,
    ?_, ?_, ?_, ?_, ?_, ?_, ?_⟩
  · rw [createSVGString]
    dsimp only
    rw [List.singleton_append]
    rfl
  · simp [bgRectCount, createSVGWrapper, isFullCanvasBgRect]
  · simp [bgRectCount, createSVGWrapper, isFullCanvasBgRect, hbg]
  · intro hdne
    exact bgRectCount_optimized_transparent M size fg hsize hw hsq hfg hdne
  · rcases hdc : darkCells M with _ | ⟨c0, cs⟩
    · have hmr : moduleRects M size fg = [] := by
        rw [moduleRects]
        rw [hdc]
        rfl
      rw [optimizeSVG]
      rw [rectElems_createSVGString_some, hmr]
      rw [if_neg (by exact Bool.false_ne_true)]
      rw [convertRectsToPath_cons_nonblack _ _ _ _ (background_not_black bg hbg)]
      rw [show convertRectsToPath [] (createSVGString M size fg (some bg)).width
        (createSVGString M size fg (some bg)).height = none from rfl]
      exact bgRectCount_basic_some M size fg bg hfg hbg
    · have hmne : moduleRects M size fg ≠ [] := by
        apply moduleRects_ne_nil
        rw [hdc]
        simp
      rw [optimizeSVG]
      rw [rectElems_createSVGString_some]
      rw [if_neg (by exact Bool.false_ne_true)]
      rw [convertRectsToPath_cons_nonblack _ _ _ _ (background_not_black bg hbg)]
      rw [show (createSVGString M size fg (some bg)).width = size from rfl,
        show (createSVGString M size fg (some bg)).height = size from rfl]
      rw [convertRectsToPath_moduleRects M size fg hsize hw hsq hfg hmne]
      exact bgRectCount_createOptimizedSVG _ _
  · rw [optimizeSVGRows]
    dsimp only
    rw [rectElems_createSVGString_some]
    rw [if_neg (by exact Bool.false_ne_true)]
    rw [extractAndMergeBlocks]
    rw [show (createSVGString M size fg (some bg)).width = size from rfl,
      show (createSVGString M size fg (some bg)).height = size from rfl]
    rw [extractBlackRects_cons_nonblack _ _ _ _ (background_not_black bg hbg)]
    rw [extractBlackRects_modules M size fg hsize hw hsq hfg]
    rw [findBackgroundRect_cons_bg (moduleRects M size fg) size bg hsize hbg]
    by_cases hmr : moduleRects M size fg = []
    · rw [hmr]
      rw [if_pos (show List.isEmpty ([] : List RectData) = true from rfl)]
      apply bgRectCount_createOptimizedRowSVG
      · intro r hr
        have hreq := Option.some.inj hr
        rw [← hreq]
        simp [createSVGString, isFullCanvasBgRect, hbg]
      · intro r hrm
        simp at hrm
    · rw [if_neg (by rw [isEmpty_false_of_ne_nil _ hmr]; exact Bool.false_ne_true)]
      apply bgRectCount_createOptimizedRowSVG
      · intro r hr
        have hreq := Option.some.inj hr
        rw [← hreq]
        simp [createSVGString, isFullCanvasBgRect, hbg]
      · exact mergedModules_not_background M size fg hsize hw hfg
  · intro hde
    have hmr : moduleRects M size fg = [] := by
      rw [moduleRects]
      rw [hde]
      rfl
    have hopt : optimizeSVG (createSVGString M size fg none) =
        createSVGString M size fg none := by
      rw [optimizeSVG]
      rw [rectElems_createSVGString_none, hmr]
      rw [if_pos (show List.isEmpty ([] : List RectData) = true from rfl)]
    have hrow : optimizeSVGRows (createSVGString M size fg none) =
        createSVGString M size fg none := by
      rw [optimizeSVGRows]
      rw [rectElems_createSVGString_none, hmr]
      rw [if_pos (show List.isEmpty ([] : List RectData) = true from rfl)]
    refine ⟨hopt, hrow, ?_, ?_⟩
    · rw [hopt]
      exact bgRectCount_basic_none M size fg hfg
    · rw [hrow]
      exact bgRectCount_basic_none M size fg hfg

/-- Witness for C8_background_emission at the 1-by-1 dark matrix with a
white background. -/
theorem C8_background_emission_witness :
    bgRectCount (createSVGString oneDarkMatrix 10 rgbBlack none) = 0 ∧
    bgRectCount (optimizeSVG (createSVGString oneDarkMatrix 10 rgbBlack (some rgbWhite))) = 1 :=
  ⟨(C8_background_emission oneDarkMatrix 10 rgbBlack rgbWhite MimeType.png
      (by norm_num) (by decide) rfl (by decide) (by decide)).1,
   (C8_background_emission oneDarkMatrix 10 rgbBlack rgbWhite MimeType.png
      (by norm_num) (by decide) rfl (by decide) (by decide)).2.2.2.2.2.2.1⟩
